import Mathlib

/-! Backup scheduler of velld (`apps/api/internal/backup/backup_scheduler.go`).

A shallow embedding of the schedule lifecycle (`ScheduleBackup`,
`UpdateBackupSchedule`, `DisableBackupSchedule`) and of the execution path
(`executeCronBackup`, `cleanupOldBackups`).

The state of a `BackupService` is passed explicitly.  The collaborators that
the scheduler calls (the schedule repository, the cron manager, the clock, the
uuid generator, the backup routine, the notification sink) are not part of the
file under study: their outcomes during one call are the fields of an
environment record, and their effect on the state is modelled from the
specification.
-/

namespace Velld

/-! ## Data model -/

/-- Schedule identity (`uuid.UUID`); `ID.String()` is injective, so the map key
    is the identity itself. -/
abbrev UUID := Nat

/-- Handle of a registration in the cron manager (`cron.EntryID`). -/
abbrev EntryID := Nat

/-- An instant (`time.Time`), in seconds of the Unix clock. -/
abbrev Instant := Int

/-- Persisted schedule record (`BackupSchedule`), with the fields the scheduler
    reads and writes. -/
structure BackupSchedule where
  ID : UUID
  ConnectionID : String
  Enabled : Bool
  CronSchedule : String
  RetentionDays : Int
  NextRunTime : Option Instant
  LastBackupTime : Option Instant
  CreatedAt : Instant
  UpdatedAt : Instant
deriving DecidableEq, Repr

/-- Request of `ScheduleBackup`. -/
structure ScheduleBackupRequest where
  ConnectionID : String
  CronSchedule : String
  RetentionDays : Int
deriving DecidableEq, Repr

/-- Request of `UpdateBackupSchedule`. -/
structure UpdateScheduleRequest where
  CronSchedule : String
  RetentionDays : Int
deriving DecidableEq, Repr

/-- The six-field cron parser (`cron.NewParser(Second|Minute|Hour|Dom|Month|Dow)`),
    taken as a parameter: `none` when the expression is rejected, otherwise the
    evaluator `Next`. -/
abbrev Parser := String → Option (Instant → Instant)

/-- Errors of the repository: `sql.ErrNoRows`, or any other failure. -/
inductive RepoErr where
  | ErrNoRows
  | other
deriving DecidableEq, Repr

/-- Errors returned by the administrative operations; the wrapped ones are
    named after their message. -/
inductive Err where
  | failedToCheckExisting
  | invalidCronSchedule
  | failedToUpdate
  | failedToSave
  | failedToSchedule
  | failedToRegister
  | repo (e : RepoErr)
deriving DecidableEq, Repr

/-! ## Schedule repository -/

/-- Modelled from the spec: `GetSchedule(connectionID) → Schedule | NotFound`
    of the repository (its code is not in the file under study).  The lookup is
    by connection; `fail` is an outcome other than `sql.ErrNoRows`. -/
def GetBackupSchedule (repo : List BackupSchedule) (fail : Bool) (connectionID : String) :
    Except RepoErr BackupSchedule :=
  if fail then .error .other
  else match repo.find? (fun r => decide (r.ConnectionID = connectionID)) with
    | some r => .ok r
    | none => .error .ErrNoRows

/-- Modelled from the spec: `CreateSchedule(Schedule)` of the repository; a
    successful write adds the record, a failed one changes nothing. -/
def CreateBackupSchedule (repo : List BackupSchedule) (fail : Bool) (sched : BackupSchedule) :
    Except RepoErr (List BackupSchedule) :=
  if fail then .error .other else .ok (repo ++ [sched])

/-- Modelled from the spec: `UpdateSchedule(Schedule)` of the repository; a
    successful write replaces the record of that identity, a failed one changes
    nothing. -/
def UpdateBackupSchedule (repo : List BackupSchedule) (fail : Bool) (sched : BackupSchedule) :
    Except RepoErr (List BackupSchedule) :=
  if fail then .error .other
  else .ok (repo.map (fun r => if r.ID = sched.ID then sched else r))

/-! ## Cron manager -/

/-- A live registration in the cron manager: its handle, the expression and the
    schedule captured by the callback `func() { s.executeCronBackup(schedule) }`. -/
structure Entry where
  ID : EntryID
  Spec : String
  Job : BackupSchedule
deriving DecidableEq, Repr

/-- Modelled from the spec: the timer subsystem (`cron.Cron`), the list of live
    registrations and the counter from which handles are drawn. -/
structure Cron where
  entries : List Entry
  nextID : EntryID
deriving DecidableEq, Repr

/-- Modelled from the spec: `Register` of the timer subsystem (`AddFunc`): on
    success a new handle is drawn and the registration becomes live; on failure
    nothing changes. -/
def Cron.AddFunc (c : Cron) (fail : Bool) (spec : String) (job : BackupSchedule) :
    Option (EntryID × Cron) :=
  if fail then none
  else some (c.nextID + 1,
    { entries := c.entries ++ [{ ID := c.nextID + 1, Spec := spec, Job := job }],
      nextID := c.nextID + 1 })

/-- Modelled from the spec: `Unregister` of the timer subsystem (`Remove`):
    the registration with that handle stops being live; a no-op when absent. -/
def Cron.Remove (c : Cron) (id : EntryID) : Cron :=
  { c with entries := c.entries.filter (fun e => decide (e.ID ≠ id)) }

/-! ## The registry `cronEntries` (a Go `map[string]cron.EntryID`) -/

/-- The map `cronEntries`, as an association list. -/
abbrev EntryMap := List (UUID × EntryID)

/-- Map lookup `v, ok := m[k]`. -/
def mapGet : EntryMap → UUID → Option EntryID
  | [], _ => none
  | (k', v) :: t, k => if k' = k then some v else mapGet t k

/-- Map removal `delete(m, k)`. -/
def mapDelete (m : EntryMap) (k : UUID) : EntryMap :=
  m.filter (fun p => decide (p.1 ≠ k))

/-- Map assignment `m[k] = v`. -/
def mapSet (m : EntryMap) (k : UUID) (v : EntryID) : EntryMap :=
  (k, v) :: mapDelete m k

/-! ## Service state and the administrative operations -/

/-- The part of `BackupService` the scheduler uses: the persisted schedules
    behind `backupRepo`, the registry `cronEntries` and the cron manager. -/
structure BackupService where
  backupRepo : List BackupSchedule
  cronEntries : EntryMap
  cronManager : Cron
deriving DecidableEq, Repr

/-- Outcomes of the collaborators during one administrative call: the readings
    of `time.Now()` in program order, the value of `uuid.New()`, and whether
    the repository lookup, the repository write and `AddFunc` fail. -/
structure Env where
  now0 : Instant
  now1 : Instant
  now2 : Instant
  newID : UUID
  getErr : Bool
  writeErr : Bool
  addErr : Bool
deriving DecidableEq, Repr

/-- The empty service: nothing persisted, empty registry, no live timer. -/
def BackupService.empty : BackupService :=
  { backupRepo := [], cronEntries := [], cronManager := { entries := [], nextID := 0 } }

/-- `BackupService.ScheduleBackup`: the returned error (`none` for `nil`) and the
    state after the call. -/
def ScheduleBackup (parse : Parser) (env : Env) (s : BackupService)
    (req : ScheduleBackupRequest) : Option Err × BackupService :=
  match GetBackupSchedule s.backupRepo env.getErr req.ConnectionID with
  | .error .other => (some .failedToCheckExisting, s)
  | .ok existingSchedule =>
    match parse req.CronSchedule with
    | none => (some .invalidCronSchedule, s)
    | some schedule =>
      let nextRun := schedule env.now0
      let existingSchedule : BackupSchedule :=
        { existingSchedule with
          Enabled := true, CronSchedule := req.CronSchedule,
          RetentionDays := req.RetentionDays, NextRunTime := some nextRun,
          UpdatedAt := env.now1 }
      match UpdateBackupSchedule s.backupRepo env.writeErr existingSchedule with
      | .error _ => (some .failedToUpdate, s)
      | .ok repo =>
        let scheduleID := existingSchedule.ID
        let mgr := match mapGet s.cronEntries scheduleID with
          | some oldEntryID => s.cronManager.Remove oldEntryID
          | none => s.cronManager
        match mgr.AddFunc env.addErr req.CronSchedule existingSchedule with
        | none =>
          (some .failedToSchedule,
            { backupRepo := repo, cronEntries := s.cronEntries, cronManager := mgr })
        | some (entryID, mgr') =>
          (none,
            { backupRepo := repo, cronEntries := mapSet s.cronEntries scheduleID entryID,
              cronManager := mgr' })
  | .error .ErrNoRows =>
    match parse req.CronSchedule with
    | none => (some .invalidCronSchedule, s)
    | some schedule =>
      let nextRun := schedule env.now0
      let backupSchedule : BackupSchedule :=
        { ID := env.newID, ConnectionID := req.ConnectionID, Enabled := true,
          CronSchedule := req.CronSchedule, RetentionDays := req.RetentionDays,
          NextRunTime := some nextRun, LastBackupTime := none,
          CreatedAt := env.now1, UpdatedAt := env.now2 }
      match CreateBackupSchedule s.backupRepo env.writeErr backupSchedule with
      | .error _ => (some .failedToSave, s)
      | .ok repo =>
        let scheduleID := backupSchedule.ID
        match s.cronManager.AddFunc env.addErr req.CronSchedule backupSchedule with
        | none =>
          (some .failedToSchedule,
            { backupRepo := repo, cronEntries := s.cronEntries, cronManager := s.cronManager })
        | some (entryID, mgr') =>
          (none,
            { backupRepo := repo, cronEntries := mapSet s.cronEntries scheduleID entryID,
              cronManager := mgr' })

/-- `BackupService.DisableBackupSchedule`. -/
def DisableBackupSchedule (env : Env) (s : BackupService) (connectionID : String) :
    Option Err × BackupService :=
  match GetBackupSchedule s.backupRepo env.getErr connectionID with
  | .error e => (some (.repo e), s)
  | .ok schedule =>
    let scheduleID := schedule.ID
    let s1 : BackupService := match mapGet s.cronEntries scheduleID with
      | some entryID =>
        { backupRepo := s.backupRepo, cronEntries := mapDelete s.cronEntries scheduleID,
          cronManager := s.cronManager.Remove entryID }
      | none => s
    let schedule : BackupSchedule := { schedule with Enabled := false, UpdatedAt := env.now0 }
    match UpdateBackupSchedule s1.backupRepo env.writeErr schedule with
    | .error e => (some (.repo e), s1)
    | .ok repo =>
      (none, { backupRepo := repo, cronEntries := s1.cronEntries, cronManager := s1.cronManager })

/-- `BackupService.UpdateBackupSchedule`. -/
def UpdateSchedule (parse : Parser) (env : Env) (s : BackupService) (connectionID : String)
    (req : UpdateScheduleRequest) : Option Err × BackupService :=
  match GetBackupSchedule s.backupRepo env.getErr connectionID with
  | .error e => (some (.repo e), s)
  | .ok schedule =>
    match parse req.CronSchedule with
    | none => (some .invalidCronSchedule, s)
    | some _ =>
      let schedule : BackupSchedule :=
        { schedule with CronSchedule := req.CronSchedule, RetentionDays := req.RetentionDays }
      match UpdateBackupSchedule s.backupRepo env.writeErr schedule with
      | .error e => (some (.repo e), s)
      | .ok repo =>
        let s1 : BackupService := match mapGet s.cronEntries schedule.ID with
          | some entryID =>
            { backupRepo := repo, cronEntries := mapDelete s.cronEntries schedule.ID,
              cronManager := s.cronManager.Remove entryID }
          | none => { backupRepo := repo, cronEntries := s.cronEntries, cronManager := s.cronManager }
        match s1.cronManager.AddFunc env.addErr schedule.CronSchedule schedule with
        | none => (some .failedToRegister, s1)
        | some (entryID, mgr') =>
          (none,
            { backupRepo := repo, cronEntries := mapSet s1.cronEntries schedule.ID entryID,
              cronManager := mgr' })

/-- A parser instance for evaluating the operations on concrete inputs: it
    accepts the expressions made of six blank-separated fields and fires at the
    next full minute. -/
def sampleParser : Parser := fun expr =>
  if (expr.data.filter (fun c => decide (c = ' '))).length = 5
  then some (fun t => t - t % 60 + 60) else none

/-- An environment in which every collaborator succeeds. -/
def okEnv (now : Instant) (newID : UUID) : Env :=
  { now0 := now, now1 := now, now2 := now, newID := newID,
    getErr := false, writeErr := false, addErr := false }

/-! ## Execution engine -/

/-- Backup record, with the fields the scheduler reads (`ID`, `Status`, `Path`)
    and those the repository selects on. -/
structure Backup where
  ID : UUID
  ConnectionID : String
  Path : String
  Status : String
  ScheduleID : Option UUID
  CreatedAt : Instant
deriving DecidableEq, Repr

/-- The backup records of the repository and the artifacts on storage. -/
structure Storage where
  backups : List Backup
  files : List String
deriving DecidableEq, Repr

/-- The error handed to `createFailureNotification`. -/
inductive ExecErr where
  | simulatedTestFailure
  | createBackupFailed
deriving DecidableEq, Repr

/-- Calls made to the collaborators during one run, in program order.
    `print` stands for a line on the log (`fmt.Printf`). -/
inductive Call where
  | createFailureNotification (connectionID : String) (err : ExecErr)
  | print
  | CreateBackup (connectionID : String)
  | UpdateBackupStatusAndSchedule (backupID : UUID) (status : String) (scheduleID : UUID)
  | UpdateBackupSchedule (sched : BackupSchedule)
  | cleanupOldBackups (connectionID : String) (retentionDays : Int)
  | GetBackupsOlderThan (connectionID : String) (cutoff : Instant)
  | osRemove (path : String)
  | DeleteBackup (id : UUID)
deriving DecidableEq, Repr

/-- Outcomes of the collaborators during one run of `executeCronBackup`:
    the backup routine `s.CreateBackup` (an arbitrary operation on the storage
    that returns a record, or `none` for an error), the failures of the
    notification sink and of the repository, per item for `os.Remove` and
    `DeleteBackup`, the readings of `time.Now()` in program order, and the
    time library: `AddDate t days` is `t.AddDate(0, 0, days)` in the zone of
    the process. -/
structure ExecEnv where
  createBackup : String → Storage → Option Backup × Storage
  notifyErr : Bool
  statusErr : Bool
  writeErr : Bool
  olderErr : Bool
  removeErr : String → Bool
  deleteErr : UUID → Bool
  now0 : Instant
  now1 : Instant
  now2 : Instant
  AddDate : Instant → Int → Instant

/-- Reduction of an integer to the range of a Go `int` (64 bits, two's
    complement): the result of an `int` operation that overflows. -/
def wrap64 (x : Int) : Int :=
  (x + 9223372036854775808) % 18446744073709551616 - 9223372036854775808

/-- The library's `AddDate(0, 0, days)` in a process whose zone is UTC, for
    evaluating the retention pass on concrete inputs: the day count is added to
    the seconds that `time.Time` holds (counted from 1 January of year 1, which
    is 62135596800 seconds before the Unix epoch) in 64-bit arithmetic. -/
def utcAddDate (t : Instant) (days : Int) : Instant :=
  wrap64 (t + 62135596800 + days * 86400) - 62135596800

/-- Modelled from the spec: `GetBackupsOlderThan(connectionID, cutoff)` of the
    repository, the records of the connection strictly older than the cutoff. -/
def GetBackupsOlderThan (backups : List Backup) (fail : Bool) (connectionID : String)
    (cutoff : Instant) : Except RepoErr (List Backup) :=
  if fail then .error .other
  else .ok (backups.filter
    (fun b => decide (b.ConnectionID = connectionID ∧ b.CreatedAt < cutoff)))

/-- Modelled from the spec: `DeleteBackup(id)` of the repository; a failed
    deletion changes nothing. -/
def DeleteBackup (backups : List Backup) (fail : Bool) (id : UUID) : List Backup :=
  if fail then backups else backups.filter (fun b => decide (b.ID ≠ id))

/-- Modelled from the spec: `Remove(path)` of the artifact store (`os.Remove`);
    a failed removal changes nothing. -/
def osRemove (files : List String) (fail : Bool) (path : String) : List String :=
  if fail then files else files.filter (fun f => decide (f ≠ path))

/-- Modelled from the spec: `UpdateBackupStatusAndSchedule(backupID, status,
    scheduleID)` of the repository; a failed update changes nothing. -/
def UpdateBackupStatusAndSchedule (backups : List Backup) (fail : Bool) (backupID : UUID)
    (status : String) (scheduleID : UUID) : List Backup :=
  if fail then backups
  else backups.map (fun b =>
    if b.ID = backupID then { b with Status := status, ScheduleID := some scheduleID } else b)

/-- The loop `for _, backup := range oldBackups` of `cleanupOldBackups`: both
    results are dropped, so the loop goes on whatever they are. -/
def cleanupLoop (env : ExecEnv) : List Backup → Storage → Storage × List Call
  | [], st => (st, [])
  | backup :: rest, st =>
    let files := osRemove st.files (env.removeErr backup.Path) backup.Path
    let backups := DeleteBackup st.backups (env.deleteErr backup.ID) backup.ID
    let r := cleanupLoop env rest { backups := backups, files := files }
    (r.1, [Call.osRemove backup.Path, Call.DeleteBackup backup.ID] ++ r.2)

/-- `BackupService.cleanupOldBackups`: the storage after the pass and the calls
    made. -/
def cleanupOldBackups (env : ExecEnv) (st : Storage) (connectionID : String)
    (retentionDays : Int) : Storage × List Call :=
  let cutoffTime := env.AddDate env.now2 (wrap64 (-retentionDays))
  match GetBackupsOlderThan st.backups env.olderErr connectionID cutoffTime with
  | .error _ => (st, [Call.GetBackupsOlderThan connectionID cutoffTime])
  | .ok oldBackups =>
    let r := cleanupLoop env oldBackups st
    (r.1, [Call.GetBackupsOlderThan connectionID cutoffTime] ++ r.2)

/-- Result of one run of `executeCronBackup`: the captured schedule record as
    the run leaves it, the persisted schedules, the storage, the calls made,
    and whether the run ended in a nil dereference. -/
structure ExecResult where
  schedule : BackupSchedule
  repo : List BackupSchedule
  storage : Storage
  calls : List Call
  panicked : Bool
deriving DecidableEq, Repr

/-- `BackupService.executeCronBackup`. -/
def executeCronBackup (parse : Parser) (env : ExecEnv) (repo : List BackupSchedule)
    (st : Storage) (schedule : BackupSchedule) : ExecResult :=
  if schedule.CronSchedule = "0 */1 * * * *" then
    { schedule := schedule, repo := repo, storage := st, panicked := false,
      calls := [Call.createFailureNotification schedule.ConnectionID .simulatedTestFailure]
        ++ (if env.notifyErr then [Call.print] else []) }
  else
    let created := env.createBackup schedule.ConnectionID st
    let st1 : Storage := match created.1 with
      | none => created.2
      | some backup =>
        { backups := UpdateBackupStatusAndSchedule created.2.backups env.statusErr backup.ID
            backup.Status schedule.ID,
          files := created.2.files }
    let calls1 : List Call := match created.1 with
      | none =>
        [Call.CreateBackup schedule.ConnectionID,
          Call.createFailureNotification schedule.ConnectionID .createBackupFailed]
          ++ (if env.notifyErr then [Call.print] else [])
      | some backup =>
        [Call.CreateBackup schedule.ConnectionID,
          Call.UpdateBackupStatusAndSchedule backup.ID backup.Status schedule.ID]
          ++ (if env.statusErr then [Call.print] else [])
    match parse schedule.CronSchedule with
    | none =>
      { schedule := schedule, repo := repo, storage := st1, calls := calls1, panicked := true }
    | some cronSchedule =>
      let nextRun := cronSchedule env.now0
      let schedule : BackupSchedule :=
        { schedule with
          NextRunTime := some nextRun, LastBackupTime := some env.now1, UpdatedAt := env.now1 }
      let repo1 := match UpdateBackupSchedule repo env.writeErr schedule with
        | .ok r => r
        | .error _ => repo
      let calls2 := calls1 ++ [Call.UpdateBackupSchedule schedule]
        ++ (if env.writeErr then [Call.print] else [])
      if schedule.RetentionDays > 0 then
        let r := cleanupOldBackups env st1 schedule.ConnectionID schedule.RetentionDays
        { schedule := schedule, repo := repo1, storage := r.1, panicked := false,
          calls := calls2
            ++ [Call.cleanupOldBackups schedule.ConnectionID schedule.RetentionDays] ++ r.2 }
      else
        { schedule := schedule, repo := repo1, storage := st1, calls := calls2,
          panicked := false }

/-- A backup routine that fails and leaves the storage as it is. -/
def failingCreate : String → Storage → Option Backup × Storage := fun _ st => (none, st)

/-- An execution environment whose backup routine fails and whose other
    collaborators succeed. -/
def failEnv (now : Instant) : ExecEnv :=
  { createBackup := failingCreate, notifyErr := false, statusErr := false, writeErr := false,
    olderErr := false, removeErr := fun _ => false, deleteErr := fun _ => false,
    now0 := now, now1 := now, now2 := now, AddDate := utcAddDate }

/-- The zero `time.Time` (1 January of year 1, 00:00 UTC) in seconds of the
    Unix clock: what the evaluator's `Next` returns for an expression that has
    no activation. -/
def zeroTime : Instant := -62135596800

/-- A parser instance that, like the six-field parser of the cron library,
    accepts `0 0 0 30 2 *` (midnight of 30 February), an expression that never
    fires and whose `Next` is the zero time; other expressions are handled as
    by `sampleParser`. -/
def neverFiringParser : Parser := fun expr =>
  if expr = "0 0 0 30 2 *" then some (fun _ => zeroTime) else sampleParser expr

/-! ## Predicates on states and sequences of calls -/

/-- The live registrations whose callback runs the schedule of identity `id`. -/
def liveTimers (s : BackupService) (id : UUID) : List Entry :=
  s.cronManager.entries.filter (fun e => decide (e.Job.ID = id))

/-- The persisted schedules of a connection. -/
def schedulesOf (repo : List BackupSchedule) (connectionID : String) : List BackupSchedule :=
  repo.filter (fun r => decide (r.ConnectionID = connectionID))

/-- Every live registration is the one the registry holds for its schedule. -/
def TimersRegistered (s : BackupService) : Prop :=
  ∀ e ∈ s.cronManager.entries, mapGet s.cronEntries e.Job.ID = some e.ID

/-- The value of `uuid.New()` is the identity of no persisted schedule and of
    no live registration. -/
def Fresh (env : Env) (s : BackupService) : Prop :=
  env.newID ∉ s.backupRepo.map (fun r => r.ID) ∧
    ∀ e ∈ s.cronManager.entries, e.Job.ID ≠ env.newID

/-- Every handle in the registry is live in the cron manager, and every live
    registration is stored under exactly one key. -/
def NoStaleHandles (s : BackupService) : Prop :=
  (∀ p ∈ s.cronEntries, ∃ e ∈ s.cronManager.entries, e.ID = p.2) ∧
    ∀ e ∈ s.cronManager.entries,
      (s.cronEntries.filter (fun p => decide (p.2 = e.ID))).length = 1

/-- A persisted schedule has one live timer when enabled and none otherwise. -/
def EnabledTimerInvariant (s : BackupService) : Prop :=
  ∀ r ∈ s.backupRepo, (liveTimers s r.ID).length = if r.Enabled then 1 else 0

/-- An administrative call. -/
inductive Op where
  | schedule (req : ScheduleBackupRequest)
  | update (connectionID : String) (req : UpdateScheduleRequest)
  | disable (connectionID : String)
deriving DecidableEq, Repr

/-- The state after one administrative call. -/
def step (parse : Parser) (s : BackupService) (call : Env × Op) : BackupService :=
  match call.2 with
  | .schedule req => (ScheduleBackup parse call.1 s req).2
  | .update connectionID req => (UpdateSchedule parse call.1 s connectionID req).2
  | .disable connectionID => (DisableBackupSchedule call.1 s connectionID).2

/-- The state after a sequence of administrative calls. -/
def run (parse : Parser) (s : BackupService) (calls : List (Env × Op)) : BackupService :=
  calls.foldl (step parse) s

/-- No collaborator fails during the call. -/
def Env.noFailure (env : Env) : Prop :=
  env.getErr = false ∧ env.writeErr = false ∧ env.addErr = false

/-- The calls `os.Remove` and `DeleteBackup` made for a list of records. -/
def attempts : List Backup → List Call
  | [] => []
  | b :: rest => Call.osRemove b.Path :: Call.DeleteBackup b.ID :: attempts rest

/-- A call of the retention pass: the lookup, an artifact removal or a record
    deletion. -/
def Call.isCleanup : Call → Bool
  | .cleanupOldBackups _ _ => true
  | .GetBackupsOlderThan _ _ => true
  | .osRemove _ => true
  | .DeleteBackup _ => true
  | _ => false

/-- A schedule record for evaluating the execution engine on concrete inputs. -/
def sampleSchedule (expr : String) (days : Int) : BackupSchedule :=
  { ID := 1, ConnectionID := "c1", Enabled := true, CronSchedule := expr,
    RetentionDays := days, NextRunTime := none, LastBackupTime := none,
    CreatedAt := 0, UpdatedAt := 0 }

/-- A backup record of connection `c1` for evaluating the retention pass. -/
def sampleBackup (id : UUID) (created : Instant) : Backup :=
  { ID := id, ConnectionID := "c1", Path := "/backups/c1", Status := "completed",
    ScheduleID := none, CreatedAt := created }

/-! ## Concrete states and call sequences -/

/-- The calls schedule, disable, update on connection `c1`, none of which fails. -/
def disableThenUpdate : List (Env × Op) :=
  [(okEnv 100 1, Op.schedule ⟨"c1", "0 0 * * * *", 7⟩),
   (okEnv 200 2, Op.disable "c1"),
   (okEnv 300 3, Op.update "c1" ⟨"0 30 * * * *", 7⟩)]

/-- The service after one successful `ScheduleBackup` for connection `c1`. -/
def scheduledOnce : BackupService :=
  (ScheduleBackup sampleParser (okEnv 100 1) BackupService.empty ⟨"c1", "0 0 * * * *", 7⟩).2

/-- An environment in which only `AddFunc` fails. -/
def addFuncFails : Env :=
  { now0 := 200, now1 := 200, now2 := 200, newID := 2,
    getErr := false, writeErr := false, addErr := true }

/-- The record persisted in `scheduledOnce`. -/
def scheduledRecord : BackupSchedule :=
  { ID := 1, ConnectionID := "c1", Enabled := true, CronSchedule := "0 0 * * * *",
    RetentionDays := 7, NextRunTime := some 120, LastBackupTime := none,
    CreatedAt := 100, UpdatedAt := 100 }

/-- States reachable from the empty service by administrative calls, whatever
    the outcomes of the collaborators, `uuid.New()` returning an identity that
    is not in use. -/
inductive Reachable (parse : Parser) : BackupService → Prop where
  | empty : Reachable parse BackupService.empty
  | step (s : BackupService) (call : Env × Op) :
      Reachable parse s → Fresh call.1 s → Reachable parse (step parse s call)

/-! # Theorems -/

/-! ## Retention cleanup -/

/-- The loop makes the two calls for every record of the list, in order, whatever the
    outcomes. -/
theorem cleanupLoop_calls (env : ExecEnv) (old : List Backup) (st : Storage) :
    (cleanupLoop env old st).2 = attempts old := by
  induction old generalizing st with
  | nil => rfl
  | cons b rest ih => simp [cleanupLoop, attempts, ih]

/-- Membership in the calls made for a list of records. -/
theorem mem_attempts (c : Call) (l : List Backup) :
    c ∈ attempts l ↔ ∃ b ∈ l, c = Call.osRemove b.Path ∨ c = Call.DeleteBackup b.ID := by
  induction l with
  | nil => simp [attempts]
  | cons b rest ih =>
    simp only [attempts, List.mem_cons, ih]
    constructor
    · rintro (h | h | ⟨x, hx, h⟩)
      · exact ⟨b, Or.inl rfl, Or.inl h⟩
      · exact ⟨b, Or.inl rfl, Or.inr h⟩
      · exact ⟨x, Or.inr hx, h⟩
    · rintro ⟨x, (rfl | hx), h⟩
      · rcases h with h | h
        · exact Or.inl h
        · exact Or.inr (Or.inl h)
      · exact Or.inr (Or.inr ⟨x, hx, h⟩)

/-- The records left by the loop: those no successful `DeleteBackup` of the pass names. -/
theorem cleanupLoop_backups (env : ExecEnv) (old : List Backup) (st : Storage) (x : Backup) :
    x ∈ (cleanupLoop env old st).1.backups ↔
      x ∈ st.backups ∧ ∀ b ∈ old, b.ID = x.ID → env.deleteErr b.ID = true := by
  induction old generalizing st with
  | nil => simp [cleanupLoop]
  | cons b rest ih =>
    simp only [cleanupLoop, ih, List.mem_cons, forall_eq_or_imp]
    unfold DeleteBackup
    by_cases hd : env.deleteErr b.ID = true
    · simp [hd]
    · simp only [hd, Bool.false_eq_true, if_false, List.mem_filter, decide_eq_true_eq]
      constructor
      · rintro ⟨⟨hx, hne⟩, hr⟩
        exact ⟨hx, ⟨fun h => absurd h.symm hne, hr⟩⟩
      · rintro ⟨hx, hb, hr⟩
        refine ⟨⟨hx, ?_⟩, hr⟩
        intro h
        exact hb h.symm

/-- C7, amended. With a lookup that succeeds, the retention pass with `retentionDays = N`
    makes, after the lookup at the cutoff `time.Now().AddDate(0, 0, -N)` as the time library
    computes it, exactly the calls `os.Remove` and `DeleteBackup` of the records of the
    connection created strictly before the cutoff, in order and whatever the outcome of each
    call: every such record gets both attempts and is gone when its deletion does not fail, no
    other record gets a deletion and every other record stays (identities being unique); when
    the library's results are ordered as the day counts are, a record created `N + 1` days ago
    is attempted and one created `N - 1` days ago is retained. -/
theorem cleanupOldBackups_exact (env : ExecEnv) (st : Storage) (connectionID : String)
    (N : Int) (hget : env.olderErr = false) :
    (cleanupOldBackups env st connectionID N).2 =
        Call.GetBackupsOlderThan connectionID (env.AddDate env.now2 (wrap64 (-N))) ::
          attempts (st.backups.filter (fun b =>
            decide (b.ConnectionID = connectionID ∧ b.CreatedAt < env.AddDate env.now2 (wrap64 (-N))))) ∧
    (∀ b ∈ st.backups, b.ConnectionID = connectionID → b.CreatedAt < env.AddDate env.now2 (wrap64 (-N)) →
        Call.osRemove b.Path ∈ (cleanupOldBackups env st connectionID N).2 ∧
        Call.DeleteBackup b.ID ∈ (cleanupOldBackups env st connectionID N).2 ∧
        (env.deleteErr b.ID = false → b ∉ (cleanupOldBackups env st connectionID N).1.backups)) ∧
    (∀ b ∈ st.backups, ¬ (b.ConnectionID = connectionID ∧ b.CreatedAt < env.AddDate env.now2 (wrap64 (-N))) →
        (st.backups.map (fun x => x.ID)).Nodup →
        Call.DeleteBackup b.ID ∉ (cleanupOldBackups env st connectionID N).2 ∧
        b ∈ (cleanupOldBackups env st connectionID N).1.backups) ∧
    (env.AddDate env.now2 (wrap64 (-(N + 1))) < env.AddDate env.now2 (wrap64 (-N)) →
      ∀ b ∈ st.backups, b.ConnectionID = connectionID →
        b.CreatedAt = env.AddDate env.now2 (wrap64 (-(N + 1))) →
        Call.osRemove b.Path ∈ (cleanupOldBackups env st connectionID N).2 ∧
        Call.DeleteBackup b.ID ∈ (cleanupOldBackups env st connectionID N).2 ∧
        (env.deleteErr b.ID = false → b ∉ (cleanupOldBackups env st connectionID N).1.backups)) ∧
    (env.AddDate env.now2 (wrap64 (-N)) ≤ env.AddDate env.now2 (wrap64 (-(N - 1))) →
      ∀ b ∈ st.backups, b.CreatedAt = env.AddDate env.now2 (wrap64 (-(N - 1))) →
        (st.backups.map (fun x => x.ID)).Nodup →
        Call.DeleteBackup b.ID ∉ (cleanupOldBackups env st connectionID N).2 ∧
        b ∈ (cleanupOldBackups env st connectionID N).1.backups) := by
  have hcalls : (cleanupOldBackups env st connectionID N).2 =
        Call.GetBackupsOlderThan connectionID (env.AddDate env.now2 (wrap64 (-N))) ::
          attempts (st.backups.filter (fun b =>
            decide (b.ConnectionID = connectionID ∧ b.CreatedAt < env.AddDate env.now2 (wrap64 (-N))))) := by
    simp [cleanupOldBackups, GetBackupsOlderThan, hget, cleanupLoop_calls]
  have hmem : ∀ x, x ∈ (cleanupOldBackups env st connectionID N).1.backups ↔
      x ∈ st.backups ∧ ∀ b ∈ st.backups.filter (fun b =>
            decide (b.ConnectionID = connectionID ∧ b.CreatedAt < env.AddDate env.now2 (wrap64 (-N)))),
          b.ID = x.ID → env.deleteErr b.ID = true := by
    intro x
    simp only [cleanupOldBackups, GetBackupsOlderThan, hget, Bool.false_eq_true, if_false]
    exact cleanupLoop_backups env _ st x
  have hold : ∀ b ∈ st.backups, b.ConnectionID = connectionID →
      b.CreatedAt < env.AddDate env.now2 (wrap64 (-N)) →
        Call.osRemove b.Path ∈ (cleanupOldBackups env st connectionID N).2 ∧
        Call.DeleteBackup b.ID ∈ (cleanupOldBackups env st connectionID N).2 ∧
        (env.deleteErr b.ID = false →
          b ∉ (cleanupOldBackups env st connectionID N).1.backups) := by
    intro b hb hc ht
    have hin : b ∈ st.backups.filter (fun b =>
        decide (b.ConnectionID = connectionID ∧ b.CreatedAt < env.AddDate env.now2 (wrap64 (-N)))) := by
      simp [List.mem_filter, hb, hc, ht]
    refine ⟨?_, ?_, ?_⟩
    · rw [hcalls]
      exact List.mem_cons_of_mem _ ((mem_attempts _ _).2 ⟨b, hin, Or.inl rfl⟩)
    · rw [hcalls]
      exact List.mem_cons_of_mem _ ((mem_attempts _ _).2 ⟨b, hin, Or.inr rfl⟩)
    · intro hd hmemb
      have := ((hmem b).1 hmemb).2 b hin rfl
      rw [hd] at this
      exact Bool.false_ne_true this
  have hkeep : ∀ b ∈ st.backups,
      ¬ (b.ConnectionID = connectionID ∧ b.CreatedAt < env.AddDate env.now2 (wrap64 (-N))) →
        (st.backups.map (fun x => x.ID)).Nodup →
        Call.DeleteBackup b.ID ∉ (cleanupOldBackups env st connectionID N).2 ∧
        b ∈ (cleanupOldBackups env st connectionID N).1.backups := by
    intro b hb hnot hnd
    have huniq : ∀ y ∈ st.backups.filter (fun b =>
        decide (b.ConnectionID = connectionID ∧ b.CreatedAt < env.AddDate env.now2 (wrap64 (-N)))),
        y.ID ≠ b.ID := by
      intro y hy hid
      have hy' := List.mem_filter.1 hy
      have : y = b := List.inj_on_of_nodup_map hnd hy'.1 hb hid
      subst this
      exact hnot (by simpa using hy'.2)
    constructor
    · rw [hcalls]
      intro hc
      rcases List.mem_cons.1 hc with h | h
      · cases h
      · obtain ⟨y, hy, h | h⟩ := (mem_attempts _ _).1 h
        · cases h
        · injection h with h
          exact huniq y hy h.symm
    · exact (hmem b).2 ⟨hb, fun y hy hid => absurd hid (huniq y hy)⟩
  refine ⟨hcalls, hold, hkeep, ?_, ?_⟩
  · intro hlt b hb hc ht
    apply hold b hb hc
    rw [ht]; exact hlt
  · intro hle b hb ht hnd
    apply hkeep b hb _ hnd
    rintro ⟨_, hlt⟩
    rw [ht] at hlt
    exact absurd hlt (not_lt.2 hle)


/-! ## Execution engine -/

/-- The retention pass does not call itself. -/
theorem cleanupOldBackups_calls_ne (env : ExecEnv) (st : Storage) (connectionID : String)
    (N : Int) (conn : String) (d : Int) :
    Call.cleanupOldBackups conn d ∉ (cleanupOldBackups env st connectionID N).2 := by
  intro hc
  cases hg : GetBackupsOlderThan st.backups env.olderErr connectionID
      (env.AddDate env.now2 (wrap64 (-N))) with
  | error e => simp [cleanupOldBackups, hg] at hc
  | ok old =>
    simp only [cleanupOldBackups, hg, cleanupLoop_calls, List.singleton_append,
      List.mem_cons] at hc
    rcases hc with h | h
    · cases h
    · obtain ⟨b, _, h | h⟩ := (mem_attempts _ _).1 h <;> cases h

/-- The status update keeps the identities of the records. -/
theorem UpdateBackupStatusAndSchedule_ids (l : List Backup) (fail : Bool) (i : UUID)
    (status : String) (k : UUID) :
    (UpdateBackupStatusAndSchedule l fail i status k).map (fun b => b.ID) =
      l.map (fun b => b.ID) := by
  unfold UpdateBackupStatusAndSchedule
  split
  · rfl
  · rw [List.map_map]
    apply List.map_congr_left
    intro b _
    simp only [Function.comp]
    split <;> rfl

/-- C8. When `retentionDays <= 0`, one run of `executeCronBackup` makes no call
    of the retention pass (no `cleanupOldBackups`, lookup, `os.Remove` or `DeleteBackup`),
    whatever the collaborators do, and leaves the artifacts and the identities of the backup
    records as the backup routine left them; conversely a call of `cleanupOldBackups` in a run
    has the connection and the retention window of the schedule, and that window is positive. -/
theorem executeCronBackup_no_retention (parse : Parser) (env : ExecEnv)
    (repo : List BackupSchedule) (st : Storage) (schedule : BackupSchedule) :
    (schedule.RetentionDays ≤ 0 →
      (∀ c ∈ (executeCronBackup parse env repo st schedule).calls, c.isCleanup = false) ∧
      (executeCronBackup parse env repo st schedule).storage.files =
        (if schedule.CronSchedule = "0 */1 * * * *" then st
          else (env.createBackup schedule.ConnectionID st).2).files ∧
      (executeCronBackup parse env repo st schedule).storage.backups.map (fun b => b.ID) =
        (if schedule.CronSchedule = "0 */1 * * * *" then st
          else (env.createBackup schedule.ConnectionID st).2).backups.map (fun b => b.ID)) ∧
    (∀ conn d, Call.cleanupOldBackups conn d ∈
        (executeCronBackup parse env repo st schedule).calls →
      conn = schedule.ConnectionID ∧ d = schedule.RetentionDays ∧ 0 < d) := by
  by_cases hlit : schedule.CronSchedule = "0 */1 * * * *"
  · simp only [executeCronBackup, hlit, if_true]
    constructor
    · intro _
      refine ⟨?_, trivial, trivial⟩
      cases env.notifyErr <;> simp [Call.isCleanup]
    · intro conn d h
      cases hn : env.notifyErr <;> simp [hn] at h
  · constructor
    · intro hret
      have hnot : ¬ (schedule.RetentionDays > 0) := not_lt.2 hret
      cases hcr : (env.createBackup schedule.ConnectionID st).1 <;>
        cases hp : parse schedule.CronSchedule <;>
        simp only [executeCronBackup, hlit, hcr, hp, hnot, if_false] <;>
        refine ⟨?_, ?_, ?_⟩ <;>
        first
          | rfl
          | exact UpdateBackupStatusAndSchedule_ids _ _ _ _ _
          | (cases env.notifyErr <;> cases env.statusErr <;> cases env.writeErr <;>
               simp [Call.isCleanup])
    · intro conn d h
      cases hp : parse schedule.CronSchedule with
      | none =>
        cases hcr : (env.createBackup schedule.ConnectionID st).1 <;>
          simp only [executeCronBackup, hlit, hcr, hp, if_false] at h <;>
          revert h <;>
          cases env.notifyErr <;> cases env.statusErr <;> simp
      | some ev =>
        by_cases hr : schedule.RetentionDays > 0
        · have hmem : Call.cleanupOldBackups conn d ∈
              [Call.cleanupOldBackups schedule.ConnectionID schedule.RetentionDays] := by
            cases hcr : (env.createBackup schedule.ConnectionID st).1 <;>
              simp only [executeCronBackup, hlit, hcr, hp, hr, if_true, if_false,
                List.mem_append] at h <;>
              rcases h with (h | h) | h <;>
              first
                | exact h
                | exact absurd h (cleanupOldBackups_calls_ne _ _ _ _ _ _)
                | (revert h
                   cases env.notifyErr <;> cases env.statusErr <;> cases env.writeErr <;> simp)
          simp only [List.mem_singleton] at hmem
          injection hmem with h1 h2
          exact ⟨h1, h2, by rw [h2]; exact hr⟩
        · cases hcr : (env.createBackup schedule.ConnectionID st).1 <;>
            simp only [executeCronBackup, hlit, hcr, hp, hr, if_false] at h <;>
            revert h <;>
            cases env.notifyErr <;> cases env.statusErr <;> cases env.writeErr <;> simp

/-- C5, amended. For a stored expression that parses and is not the literal
    `0 */1 * * * *`, when the backup routine fails, one run of `executeCronBackup` ends
    normally, sets `nextRunTime` to `Next` of the current instant and `lastBackupTime` to the
    current instant, calls the repository with the updated schedule (which is persisted when
    the write succeeds) and, when `retentionDays > 0`, calls `cleanupOldBackups` for the
    connection with that window. -/
theorem executeCronBackup_failure_isolation (parse : Parser) (env : ExecEnv)
    (repo : List BackupSchedule) (st : Storage) (schedule : BackupSchedule)
    (ev : Instant → Instant)
    (hlit : schedule.CronSchedule ≠ "0 */1 * * * *")
    (hp : parse schedule.CronSchedule = some ev)
    (hfail : (env.createBackup schedule.ConnectionID st).1 = none) :
    (executeCronBackup parse env repo st schedule).panicked = false ∧
    (executeCronBackup parse env repo st schedule).schedule =
      { schedule with
        NextRunTime := some (ev env.now0), LastBackupTime := some env.now1,
        UpdatedAt := env.now1 } ∧
    Call.UpdateBackupSchedule (executeCronBackup parse env repo st schedule).schedule ∈
      (executeCronBackup parse env repo st schedule).calls ∧
    (env.writeErr = false →
      (executeCronBackup parse env repo st schedule).repo =
        repo.map (fun x => if x.ID = schedule.ID
          then (executeCronBackup parse env repo st schedule).schedule else x)) ∧
    (schedule.RetentionDays > 0 →
      Call.cleanupOldBackups schedule.ConnectionID schedule.RetentionDays ∈
        (executeCronBackup parse env repo st schedule).calls) := by
  by_cases hr : schedule.RetentionDays > 0
  · simp only [executeCronBackup, hlit, hp, hfail, hr, if_true, if_false]
    refine ⟨trivial, trivial, by simp, ?_, by simp⟩
    intro hw
    simp [UpdateBackupSchedule, hw]
  · simp only [executeCronBackup, hlit, hp, hfail, hr, if_false]
    refine ⟨trivial, trivial, by simp, ?_, by simp⟩
    intro hw
    simp [UpdateBackupSchedule, hw]

/-- Instance of the amended C5 on the hourly expression. -/
theorem executeCronBackup_failure_isolation_witness :
    (sampleSchedule "0 0 * * * *" 7).CronSchedule ≠ "0 */1 * * * *" ∧
    sampleParser (sampleSchedule "0 0 * * * *" 7).CronSchedule
      = some (fun t => t - t % 60 + 60) ∧
    ((failEnv 1000).createBackup (sampleSchedule "0 0 * * * *" 7).ConnectionID ⟨[], []⟩).1
      = none ∧
    (executeCronBackup sampleParser (failEnv 1000) [] ⟨[], []⟩
      (sampleSchedule "0 0 * * * *" 7)).panicked = false :=
  ⟨by decide, by rfl, by rfl,
    (executeCronBackup_failure_isolation sampleParser (failEnv 1000) [] ⟨[], []⟩
      (sampleSchedule "0 0 * * * *" 7) (fun t => t - t % 60 + 60)
      (by decide) (by rfl) (by rfl)).1⟩

/-- C5 as stated fails: the stored expression `0 */1 * * * *` parses, the
    backup routine fails and `retentionDays = 7`, yet the run only emits the simulated failure
    notification: no `nextRunTime`, no `lastBackupTime`, no repository write, no cleanup. -/
theorem executeCronBackup_test_hook_counterexample :
    (sampleParser (sampleSchedule "0 */1 * * * *" 7).CronSchedule).isSome = true ∧
    ((failEnv 1000).createBackup (sampleSchedule "0 */1 * * * *" 7).ConnectionID ⟨[], []⟩).1
      = none ∧
    (sampleSchedule "0 */1 * * * *" 7).RetentionDays > 0 ∧
    (executeCronBackup sampleParser (failEnv 1000) [sampleSchedule "0 */1 * * * *" 7] ⟨[], []⟩
      (sampleSchedule "0 */1 * * * *" 7)) =
      { schedule := sampleSchedule "0 */1 * * * *" 7,
        repo := [sampleSchedule "0 */1 * * * *" 7],
        storage := ⟨[], []⟩,
        calls := [Call.createFailureNotification "c1" .simulatedTestFailure],
        panicked := false } := by
  refine ⟨by decide, by rfl, by decide, by decide⟩

/-- Instance of C8 with `retentionDays = 0`. -/
theorem executeCronBackup_no_retention_witness :
    (sampleSchedule "0 0 * * * *" 0).RetentionDays ≤ 0 ∧
    ∀ c ∈ (executeCronBackup sampleParser (failEnv 1000) [] ⟨[], []⟩
      (sampleSchedule "0 0 * * * *" 0)).calls, c.isCleanup = false :=
  ⟨by decide,
    ((executeCronBackup_no_retention sampleParser (failEnv 1000) [] ⟨[], []⟩
      (sampleSchedule "0 0 * * * *" 0)).1 (by decide)).1⟩

/-- On a UTC process, for instants and day counts of ordinary size, the library's `AddDate`
    subtracts whole days: the ordering the amended C7 asks for holds there. -/
theorem utcAddDate_in_range (t N : Int) (ht : 0 ≤ t ∧ t < 1099511627776)
    (hN : -1099511627776 < N ∧ N < 1099511627776) :
    utcAddDate t (wrap64 (-N)) = t - N * 86400 := by
  have h1 : wrap64 (-N) = -N := by unfold wrap64; omega
  rw [h1]
  show wrap64 (t + 62135596800 + -N * 86400) - 62135596800 = t - N * 86400
  unfold wrap64
  omega

/-- Instance of the amended C7: on a UTC process, with a window of 7 days at day 10, the
    cutoff is day 3; the record of day 2 (created 8 days ago) is attempted and the record of
    day 4 (created 6 days ago) is retained. -/
theorem cleanupOldBackups_exact_witness :
    (failEnv (10 * 86400)).olderErr = false ∧
    (failEnv (10 * 86400)).AddDate (failEnv (10 * 86400)).now2 (wrap64 (-(7 + 1))) <
      (failEnv (10 * 86400)).AddDate (failEnv (10 * 86400)).now2 (wrap64 (-7)) ∧
    (failEnv (10 * 86400)).AddDate (failEnv (10 * 86400)).now2 (wrap64 (-7)) ≤
      (failEnv (10 * 86400)).AddDate (failEnv (10 * 86400)).now2 (wrap64 (-(7 - 1))) ∧
    (sampleBackup 2 (4 * 86400)).CreatedAt =
      (failEnv (10 * 86400)).AddDate (failEnv (10 * 86400)).now2 (wrap64 (-(7 - 1))) ∧
    ([sampleBackup 1 (2 * 86400), sampleBackup 2 (4 * 86400)].map (fun x => x.ID)).Nodup ∧
    (cleanupOldBackups (failEnv (10 * 86400))
      ⟨[sampleBackup 1 (2 * 86400), sampleBackup 2 (4 * 86400)], []⟩ "c1" 7).2 =
      [Call.GetBackupsOlderThan "c1" (3 * 86400), Call.osRemove "/backups/c1",
        Call.DeleteBackup 1] ∧
    sampleBackup 2 (4 * 86400) ∈ (cleanupOldBackups (failEnv (10 * 86400))
      ⟨[sampleBackup 1 (2 * 86400), sampleBackup 2 (4 * 86400)], []⟩ "c1" 7).1.backups :=
  ⟨rfl, by decide, by decide, by decide, by decide, by
    have h := (cleanupOldBackups_exact (failEnv (10 * 86400))
      ⟨[sampleBackup 1 (2 * 86400), sampleBackup 2 (4 * 86400)], []⟩ "c1" 7 rfl).1
    rw [h]; decide,
    ((cleanupOldBackups_exact (failEnv (10 * 86400))
      ⟨[sampleBackup 1 (2 * 86400), sampleBackup 2 (4 * 86400)], []⟩ "c1" 7 rfl).2.2.2.2
        (by decide) (sampleBackup 2 (4 * 86400)) (by decide) (by decide) (by decide)).2⟩

/-- C7 as stated fails: on a UTC process with `retentionDays = 9223372036854775807`, the
    largest `int`, the day arithmetic of `AddDate` wraps and the cutoff is one day after now,
    so a record created at the instant of the pass, which is not older than `N` days, gets
    both attempts and is deleted, the lookup and the deletion having worked. -/
theorem cleanupOldBackups_overflow_counterexample :
    (failEnv 1700000000).olderErr = false ∧
    (0 : Int) < 9223372036854775807 ∧
    ¬ ((sampleBackup 1 1700000000).CreatedAt <
        (failEnv 1700000000).now2 - 9223372036854775807 * 86400) ∧
    cleanupOldBackups (failEnv 1700000000) ⟨[sampleBackup 1 1700000000], []⟩ "c1"
        9223372036854775807 =
      (⟨[], []⟩,
        [Call.GetBackupsOlderThan "c1" (1700000000 + 86400), Call.osRemove "/backups/c1",
          Call.DeleteBackup 1]) := by
  refine ⟨rfl, by decide, by decide, by decide⟩

/-! ## Registry and repository lemmas -/

/-- Lookup after `delete(m, k)`. -/
theorem mapGet_mapDelete (m : EntryMap) (k k' : UUID) :
    mapGet (mapDelete m k) k' = if k = k' then none else mapGet m k' := by
  induction m with
  | nil => simp [mapDelete, mapGet]
  | cons p t ih =>
    obtain ⟨a, v⟩ := p
    unfold mapDelete at ih ⊢
    by_cases ha : a = k
    · subst ha
      simp only [List.filter, ne_eq, not_true_eq_false, decide_False, ih, mapGet]
      by_cases hk : a = k' <;> simp [hk]
    · simp only [List.filter, ne_eq, ha, not_false_eq_true, decide_True, mapGet, ih]
      by_cases hk : k = k'
      · subst hk; simp [ha]
      · simp [hk]

/-- Lookup after `m[k] = v`. -/
theorem mapGet_mapSet (m : EntryMap) (k k' : UUID) (v : EntryID) :
    mapGet (mapSet m k v) k' = if k = k' then some v else mapGet m k' := by
  unfold mapSet
  simp only [mapGet, mapGet_mapDelete]
  by_cases hk : k = k' <;> simp [hk]

/-- After `m[k] = v` the map has exactly one entry of key `k`. -/
theorem mapSet_key_count (m : EntryMap) (k : UUID) (v : EntryID) :
    ((mapSet m k v).filter (fun p => decide (p.1 = k))).length = 1 := by
  unfold mapSet mapDelete
  simp [List.filter_cons, List.filter_filter]

/-- The lookup by connection finds the record that replaced the one it found before. -/
theorem find_replace (repo : List BackupSchedule) (c : String) (r r' : BackupSchedule)
    (id : UUID)
    (hfind : repo.find? (fun x => decide (x.ConnectionID = c)) = some r)
    (hid : r.ID = id) (hc : r'.ConnectionID = c) :
    (repo.map (fun x => if x.ID = id then r' else x)).find?
      (fun x => decide (x.ConnectionID = c)) = some r' := by
  subst hid
  induction repo with
  | nil => simp at hfind
  | cons a t ih =>
    simp only [List.map_cons, List.find?_cons]
    by_cases hid : a.ID = r.ID
    · simp [hid, hc]
    · simp only [hid, if_false]
      by_cases hac : a.ConnectionID = c
      · simp only [List.find?_cons, hac, decide_True] at hfind
        injection hfind with h
        exact absurd (by rw [h]) hid
      · simp only [List.find?_cons, hac, decide_False] at hfind
        simp only [hac, decide_False]
        exact ih hfind

/-- The lookup succeeds exactly on the first record of the connection. -/
theorem GetBackupSchedule_ok (repo : List BackupSchedule) (fail : Bool) (c : String)
    (r : BackupSchedule) :
    GetBackupSchedule repo fail c = .ok r ↔
      fail = false ∧ repo.find? (fun x => decide (x.ConnectionID = c)) = some r := by
  unfold GetBackupSchedule
  cases fail
  · cases h : repo.find? (fun x => decide (x.ConnectionID = c)) <;> simp
  · simp

/-- The lookup reports `sql.ErrNoRows` exactly when the connection has no record. -/
theorem GetBackupSchedule_noRows (repo : List BackupSchedule) (fail : Bool) (c : String) :
    GetBackupSchedule repo fail c = .error .ErrNoRows ↔
      fail = false ∧ repo.find? (fun x => decide (x.ConnectionID = c)) = none := by
  unfold GetBackupSchedule
  cases fail
  · cases h : repo.find? (fun x => decide (x.ConnectionID = c)) <;> simp
  · simp

/-- The record found belongs to the connection and is persisted. -/
theorem GetBackupSchedule_conn (repo : List BackupSchedule) (fail : Bool) (c : String)
    (r : BackupSchedule) (h : GetBackupSchedule repo fail c = .ok r) :
    r.ConnectionID = c ∧ r ∈ repo := by
  have h2 := ((GetBackupSchedule_ok repo fail c r).1 h).2
  have := List.find?_some h2
  exact ⟨by simpa using this, List.mem_of_find?_eq_some h2⟩

/-! ## Administrative operations: error paths -/

/-- C3. For an expression the six-field parser rejects, `ScheduleBackup`
    returns an error and `UpdateBackupSchedule` returns an error, and the state after the call
    (persisted schedules, `cronEntries`, live timers) is the state before it; the error is the
    invalid-expression one whenever the lookup did not fail first. -/
theorem invalid_expression_no_mutation (parse : Parser) (env : Env) (s : BackupService)
    (req : ScheduleBackupRequest) (connectionID : String) (ureq : UpdateScheduleRequest)
    (h1 : parse req.CronSchedule = none) (h2 : parse ureq.CronSchedule = none) :
    ((ScheduleBackup parse env s req).1 ≠ none ∧ (ScheduleBackup parse env s req).2 = s ∧
      (env.getErr = false →
        (ScheduleBackup parse env s req).1 = some Err.invalidCronSchedule)) ∧
    ((UpdateSchedule parse env s connectionID ureq).1 ≠ none ∧
      (UpdateSchedule parse env s connectionID ureq).2 = s ∧
      (∀ r, GetBackupSchedule s.backupRepo env.getErr connectionID = .ok r →
        (UpdateSchedule parse env s connectionID ureq).1 = some Err.invalidCronSchedule)) := by
  constructor
  · cases hg : GetBackupSchedule s.backupRepo env.getErr req.ConnectionID with
    | ok r => simp [ScheduleBackup, hg, h1]
    | error e =>
      cases e with
      | ErrNoRows => simp [ScheduleBackup, hg, h1]
      | other =>
        refine ⟨by simp [ScheduleBackup, hg], by simp [ScheduleBackup, hg], ?_⟩
        intro hf
        simp [GetBackupSchedule, hf] at hg
        split at hg <;> simp at hg
  · cases hg : GetBackupSchedule s.backupRepo env.getErr connectionID with
    | ok r => simp [UpdateSchedule, hg, h2]
    | error e => simp [UpdateSchedule, hg]

/-- Instance of C3 on the empty service. -/
theorem invalid_expression_no_mutation_witness :
    sampleParser "every hour" = none ∧ sampleParser "hourly" = none ∧
    (ScheduleBackup sampleParser (okEnv 100 1) BackupService.empty
      ⟨"c1", "every hour", 7⟩).2 = BackupService.empty :=
  ⟨by rfl, by rfl,
    (invalid_expression_no_mutation sampleParser (okEnv 100 1) BackupService.empty
      ⟨"c1", "every hour", 7⟩ "c1" ⟨"hourly", 7⟩ (by rfl) (by rfl)).1.2.1⟩

/-- C9. For a valid expression, when the repository write fails,
    `ScheduleBackup` returns an error (the update or save failure when the lookup worked) and
    `UpdateBackupSchedule` returns an error (the repository one when the schedule exists), and
    `cronEntries`, the cron manager and the persisted schedules are what they were before. -/
theorem failed_write_no_timer_change (parse : Parser) (env : Env) (s : BackupService)
    (req : ScheduleBackupRequest) (connectionID : String) (ureq : UpdateScheduleRequest)
    (h1 : (parse req.CronSchedule).isSome = true)
    (h2 : (parse ureq.CronSchedule).isSome = true)
    (hw : env.writeErr = true) :
    ((ScheduleBackup parse env s req).1 ≠ none ∧
      (ScheduleBackup parse env s req).2.cronEntries = s.cronEntries ∧
      (ScheduleBackup parse env s req).2.cronManager = s.cronManager ∧
      (ScheduleBackup parse env s req).2.backupRepo = s.backupRepo ∧
      (env.getErr = false →
        (ScheduleBackup parse env s req).1 = some Err.failedToUpdate ∨
        (ScheduleBackup parse env s req).1 = some Err.failedToSave)) ∧
    ((UpdateSchedule parse env s connectionID ureq).1 ≠ none ∧
      (UpdateSchedule parse env s connectionID ureq).2.cronEntries = s.cronEntries ∧
      (UpdateSchedule parse env s connectionID ureq).2.cronManager = s.cronManager ∧
      (UpdateSchedule parse env s connectionID ureq).2.backupRepo = s.backupRepo ∧
      (∀ r, GetBackupSchedule s.backupRepo env.getErr connectionID = .ok r →
        (UpdateSchedule parse env s connectionID ureq).1 = some (Err.repo .other))) := by
  obtain ⟨ev1, hp1⟩ := Option.isSome_iff_exists.1 h1
  obtain ⟨ev2, hp2⟩ := Option.isSome_iff_exists.1 h2
  constructor
  · cases hg : GetBackupSchedule s.backupRepo env.getErr req.ConnectionID with
    | ok r => simp [ScheduleBackup, hg, hp1, UpdateBackupSchedule, hw]
    | error e =>
      cases e with
      | ErrNoRows => simp [ScheduleBackup, hg, hp1, CreateBackupSchedule, hw]
      | other =>
        refine ⟨by simp [ScheduleBackup, hg], by simp [ScheduleBackup, hg],
          by simp [ScheduleBackup, hg], by simp [ScheduleBackup, hg], ?_⟩
        intro hf
        simp [GetBackupSchedule, hf] at hg
        split at hg <;> simp at hg
  · cases hg : GetBackupSchedule s.backupRepo env.getErr connectionID with
    | ok r => simp [UpdateSchedule, hg, hp2, UpdateBackupSchedule, hw]
    | error e => simp [UpdateSchedule, hg]

/-- Instance of C9 on the empty service. -/
theorem failed_write_no_timer_change_witness :
    (sampleParser "0 0 * * * *").isSome = true ∧
    ({ okEnv 100 1 with writeErr := true } : Env).writeErr = true ∧
    (ScheduleBackup sampleParser { okEnv 100 1 with writeErr := true } BackupService.empty
      ⟨"c1", "0 0 * * * *", 7⟩).2.cronManager = BackupService.empty.cronManager :=
  ⟨by rfl, by rfl,
    (failed_write_no_timer_change sampleParser { okEnv 100 1 with writeErr := true }
      BackupService.empty ⟨"c1", "0 0 * * * *", 7⟩ "c1" ⟨"0 0 * * * *", 7⟩
      (by rfl) (by rfl) (by rfl)).1.2.2.1⟩

/-! ## `ScheduleBackup`: postcondition -/

/-- The lookup finds a record appended for a connection that had none. -/
theorem find_append_new (repo : List BackupSchedule) (c : String) (b : BackupSchedule)
    (hnone : repo.find? (fun x => decide (x.ConnectionID = c)) = none)
    (hb : b.ConnectionID = c) :
    (repo ++ [b]).find? (fun x => decide (x.ConnectionID = c)) = some b := by
  rw [List.find?_append, hnone]
  simp [hb]

/-- C4, amended. For an expression the parser accepts, whatever the state, if
    `ScheduleBackup` succeeds then a lookup for the connection right after it returns a schedule
    with `enabled = true`, the expression and retention of the request, and `nextRunTime` equal
    to `Next` of the instant read during the call; that is strictly after the start of the call
    (any instant not later than the reading) whenever `Next` of the reading is later than the
    reading. -/
theorem ScheduleBackup_postcondition (parse : Parser) (env : Env) (s : BackupService)
    (req : ScheduleBackupRequest) (ev : Instant → Instant)
    (hp : parse req.CronSchedule = some ev)
    (hok : (ScheduleBackup parse env s req).1 = none) :
    ∃ r, GetBackupSchedule (ScheduleBackup parse env s req).2.backupRepo false
          req.ConnectionID = .ok r ∧
      r.Enabled = true ∧ r.CronSchedule = req.CronSchedule ∧
      r.RetentionDays = req.RetentionDays ∧
      r.NextRunTime = some (ev env.now0) ∧
      ∀ start : Instant, env.now0 < ev env.now0 → start ≤ env.now0 →
        ∃ n, r.NextRunTime = some n ∧ start < n := by
  have hlate : ∀ start : Instant, env.now0 < ev env.now0 → start ≤ env.now0 →
      ∃ n, some (ev env.now0) = some n ∧ start < n :=
    fun start hev hs => ⟨ev env.now0, rfl, lt_of_le_of_lt hs hev⟩
  cases hg : GetBackupSchedule s.backupRepo env.getErr req.ConnectionID with
  | ok r =>
    have hfind := ((GetBackupSchedule_ok _ _ _ _).1 hg).2
    have hconn := (GetBackupSchedule_conn _ _ _ _ hg).1
    cases hw : env.writeErr
    · cases ha : env.addErr
      · simp only [ScheduleBackup, hg, hp, UpdateBackupSchedule, hw, Cron.AddFunc, ha,
          Bool.false_eq_true, if_false]
        exact ⟨_, (GetBackupSchedule_ok _ _ _ _).2 ⟨rfl, find_replace _ _ r _ _ hfind rfl hconn⟩,
          rfl, rfl, rfl, rfl, hlate⟩
      · simp [ScheduleBackup, hg, hp, UpdateBackupSchedule, hw, Cron.AddFunc, ha] at hok
    · simp [ScheduleBackup, hg, hp, UpdateBackupSchedule, hw] at hok
  | error e =>
    cases e with
    | other => simp [ScheduleBackup, hg] at hok
    | ErrNoRows =>
      have hnone := ((GetBackupSchedule_noRows _ _ _).1 hg).2
      cases hw : env.writeErr
      · cases ha : env.addErr
        · simp only [ScheduleBackup, hg, hp, CreateBackupSchedule, hw, Cron.AddFunc, ha,
            Bool.false_eq_true, if_false]
          exact ⟨_, (GetBackupSchedule_ok _ _ _ _).2 ⟨rfl, find_append_new _ _ _ hnone rfl⟩,
            rfl, rfl, rfl, rfl, hlate⟩
        · simp [ScheduleBackup, hg, hp, CreateBackupSchedule, hw, Cron.AddFunc, ha] at hok
      · simp [ScheduleBackup, hg, hp, CreateBackupSchedule, hw] at hok

/-- Instance of the amended C4 on the empty service: scheduled at instant 100 with the
    hourly expression, the schedule is enabled and its next run, 120, is after the call. -/
theorem ScheduleBackup_postcondition_witness :
    sampleParser "0 0 * * * *" = some (fun t => t - t % 60 + 60) ∧
    (ScheduleBackup sampleParser (okEnv 100 1) BackupService.empty
      ⟨"c1", "0 0 * * * *", 7⟩).1 = none ∧
    ∃ r, GetBackupSchedule (ScheduleBackup sampleParser (okEnv 100 1) BackupService.empty
          ⟨"c1", "0 0 * * * *", 7⟩).2.backupRepo false "c1" = .ok r ∧
      r.Enabled = true ∧ r.NextRunTime = some 120 ∧
      ∃ n, r.NextRunTime = some n ∧ (100 : Instant) < n := by
  refine ⟨rfl, by decide, ?_⟩
  obtain ⟨r, h1, h2, _, _, h5, h6⟩ :=
    ScheduleBackup_postcondition sampleParser (okEnv 100 1) BackupService.empty
      ⟨"c1", "0 0 * * * *", 7⟩ (fun t => t - t % 60 + 60) rfl (by decide)
  exact ⟨r, h1, h2, by rw [h5]; rfl, h6 100 (by decide) (by decide)⟩

/-- C4 as stated fails: the expression `0 0 0 30 2 *` is accepted, `ScheduleBackup` at
    instant 1700000000 succeeds, and the lookup right after it returns an enabled schedule
    whose `nextRunTime` is the zero time, which is before the call and not after it. -/
theorem ScheduleBackup_never_firing_counterexample :
    (neverFiringParser "0 0 0 30 2 *").isSome = true ∧
    (ScheduleBackup neverFiringParser (okEnv 1700000000 1) BackupService.empty
      ⟨"c1", "0 0 0 30 2 *", 7⟩).1 = none ∧
    GetBackupSchedule (ScheduleBackup neverFiringParser (okEnv 1700000000 1)
        BackupService.empty ⟨"c1", "0 0 0 30 2 *", 7⟩).2.backupRepo false "c1" =
      .ok { ID := 1, ConnectionID := "c1", Enabled := true, CronSchedule := "0 0 0 30 2 *",
            RetentionDays := 7, NextRunTime := some zeroTime, LastBackupTime := none,
            CreatedAt := 1700000000, UpdatedAt := 1700000000 } ∧
    zeroTime < (okEnv 1700000000 1).now0 := by
  refine ⟨by decide, by decide, by rfl, by decide⟩

/-! ## `DisableBackupSchedule` -/

/-- A schedule without a registry entry has no live timer. -/
theorem liveTimers_eq_nil_of_unregistered (s : BackupService) (id : UUID)
    (hreg : TimersRegistered s) (hm : mapGet s.cronEntries id = none) :
    liveTimers s id = [] := by
  unfold liveTimers
  rw [List.filter_eq_nil_iff]
  intro e he hid
  have h := hreg e he
  simp only [decide_eq_true_eq] at hid
  rw [hid, hm] at h
  cases h

/-- Removing the registered handle of a schedule leaves it no live timer. -/
theorem filter_removed_eq_nil (entries : List Entry) (m : EntryMap) (id : UUID) (old : EntryID)
    (hreg : ∀ e ∈ entries, mapGet m e.Job.ID = some e.ID) (hm : mapGet m id = some old) :
    (entries.filter (fun e => decide (e.ID ≠ old))).filter (fun e => decide (e.Job.ID = id))
      = [] := by
  rw [List.filter_eq_nil_iff]
  intro e he hid
  simp only [decide_eq_true_eq] at hid
  have he' := List.mem_filter.1 he
  have h := hreg e he'.1
  rw [hid, hm] at h
  injection h with h
  simp [h] at he'

/-- Deleting an absent key changes nothing. -/
theorem mapDelete_of_mapGet_none (m : EntryMap) (k : UUID) (h : mapGet m k = none) :
    mapDelete m k = m := by
  induction m with
  | nil => rfl
  | cons p t ih =>
    obtain ⟨a, v⟩ := p
    unfold mapDelete at ih ⊢
    by_cases ha : a = k
    · simp [mapGet, ha] at h
    · simp only [mapGet, ha, if_false] at h
      simp only [List.filter_cons, ne_eq, ha, not_false_eq_true, decide_True, if_true]
      rw [ih h]

/-- The state after `DisableBackupSchedule` on an existing schedule with a working write. -/
theorem DisableBackupSchedule_ok (env : Env) (s : BackupService) (connectionID : String)
    (r : BackupSchedule)
    (hg : GetBackupSchedule s.backupRepo env.getErr connectionID = .ok r)
    (hw : env.writeErr = false) :
    DisableBackupSchedule env s connectionID =
      (none,
        { backupRepo := s.backupRepo.map (fun x => if x.ID = r.ID
            then { r with Enabled := false, UpdatedAt := env.now0 } else x),
          cronEntries := mapDelete s.cronEntries r.ID,
          cronManager := match mapGet s.cronEntries r.ID with
            | some entryID => s.cronManager.Remove entryID
            | none => s.cronManager }) := by
  cases hm : mapGet s.cronEntries r.ID with
  | none =>
    simp [DisableBackupSchedule, hg, hm, UpdateBackupSchedule, hw,
      mapDelete_of_mapGet_none _ _ hm]
  | some e => simp [DisableBackupSchedule, hg, hm, UpdateBackupSchedule, hw]

/-- C6. `DisableBackupSchedule` on a connection whose lookup reports no
    schedule returns that error and leaves the state as it was; on a connection with a
    schedule, a working write and a registry that holds every live timer, it succeeds, the
    persisted schedule has `enabled = false`, the registry has no entry and the cron manager no
    live timer for its identity; and a second call with a working repository succeeds too and
    leaves the same registry, the same cron manager and the same persisted schedules up to
    `updatedAt`. -/
theorem DisableBackupSchedule_contract (env env' : Env) (s : BackupService)
    (connectionID : String) :
    (GetBackupSchedule s.backupRepo env.getErr connectionID = .error .ErrNoRows →
      DisableBackupSchedule env s connectionID = (some (Err.repo .ErrNoRows), s)) ∧
    (∀ r, GetBackupSchedule s.backupRepo env.getErr connectionID = .ok r →
      env.writeErr = false → TimersRegistered s →
      (DisableBackupSchedule env s connectionID).1 = none ∧
      GetBackupSchedule (DisableBackupSchedule env s connectionID).2.backupRepo false
        connectionID = .ok { r with Enabled := false, UpdatedAt := env.now0 } ∧
      mapGet (DisableBackupSchedule env s connectionID).2.cronEntries r.ID = none ∧
      liveTimers (DisableBackupSchedule env s connectionID).2 r.ID = [] ∧
      (env'.getErr = false → env'.writeErr = false →
        (DisableBackupSchedule env' (DisableBackupSchedule env s connectionID).2
          connectionID).1 = none ∧
        (DisableBackupSchedule env' (DisableBackupSchedule env s connectionID).2
          connectionID).2.cronEntries =
            (DisableBackupSchedule env s connectionID).2.cronEntries ∧
        (DisableBackupSchedule env' (DisableBackupSchedule env s connectionID).2
          connectionID).2.cronManager =
            (DisableBackupSchedule env s connectionID).2.cronManager ∧
        GetBackupSchedule (DisableBackupSchedule env'
          (DisableBackupSchedule env s connectionID).2 connectionID).2.backupRepo false
            connectionID = .ok { r with Enabled := false, UpdatedAt := env'.now0 } ∧
        (DisableBackupSchedule env' (DisableBackupSchedule env s connectionID).2
          connectionID).2.backupRepo.map (fun x => { x with UpdatedAt := 0 }) =
            (DisableBackupSchedule env s connectionID).2.backupRepo.map
              (fun x => { x with UpdatedAt := 0 }))) := by
  constructor
  · intro hg
    simp [DisableBackupSchedule, hg]
  · intro r hg hw hreg
    have hfind := ((GetBackupSchedule_ok _ _ _ _).1 hg).2
    have hconn := (GetBackupSchedule_conn _ _ _ _ hg).1
    have hget1 : GetBackupSchedule
        (s.backupRepo.map (fun x => if x.ID = r.ID
          then { r with Enabled := false, UpdatedAt := env.now0 } else x))
        false connectionID = .ok { r with Enabled := false, UpdatedAt := env.now0 } :=
      (GetBackupSchedule_ok _ _ _ _).2 ⟨rfl, find_replace _ _ r _ _ hfind rfl hconn⟩
    rw [DisableBackupSchedule_ok env s connectionID r hg hw]
    have hmg : mapGet (mapDelete s.cronEntries r.ID) r.ID = none := by
      rw [mapGet_mapDelete]; simp
    refine ⟨rfl, hget1, hmg, ?_, ?_⟩
    · cases hm : mapGet s.cronEntries r.ID with
      | none =>
        have := liveTimers_eq_nil_of_unregistered s r.ID hreg hm
        simpa [liveTimers] using this
      | some e =>
        simp only [liveTimers, Cron.Remove]
        exact filter_removed_eq_nil _ _ _ _ hreg hm
    · intro hg' hw'
      have hget2 : GetBackupSchedule
          (s.backupRepo.map (fun x => if x.ID = r.ID
            then { r with Enabled := false, UpdatedAt := env.now0 } else x))
          env'.getErr connectionID = .ok { r with Enabled := false, UpdatedAt := env.now0 } := by
        rw [hg']; exact hget1
      rw [DisableBackupSchedule_ok env' _ connectionID _ hget2 hw']
      simp only [hmg, mapDelete_of_mapGet_none _ _ hmg]
      refine ⟨trivial, trivial, trivial, ?_, ?_⟩
      · exact (GetBackupSchedule_ok _ _ _ _).2
          ⟨rfl, find_replace _ _ _ _ _ ((GetBackupSchedule_ok _ _ _ _).1 hget1).2 rfl hconn⟩
      · simp only [List.map_map]
        apply List.map_congr_left
        intro x _
        simp only [Function.comp]
        by_cases hx : x.ID = r.ID <;> simp [hx]

/-! ## `ScheduleBackup`: the state after a successful call -/

/-- A successful `ScheduleBackup` had no failing collaborator and a valid expression. -/
theorem ScheduleBackup_ok_cases (parse : Parser) (env : Env) (s : BackupService)
    (req : ScheduleBackupRequest) (hok : (ScheduleBackup parse env s req).1 = none) :
    env.getErr = false ∧ env.writeErr = false ∧ env.addErr = false ∧
      ∃ ev, parse req.CronSchedule = some ev := by
  cases hg : GetBackupSchedule s.backupRepo env.getErr req.ConnectionID with
  | ok r =>
    have hge := ((GetBackupSchedule_ok _ _ _ _).1 hg).1
    cases hp : parse req.CronSchedule with
    | none => simp [ScheduleBackup, hg, hp] at hok
    | some ev =>
      cases hw : env.writeErr
      · cases ha : env.addErr
        · exact ⟨hge, rfl, rfl, ev, rfl⟩
        · simp [ScheduleBackup, hg, hp, UpdateBackupSchedule, hw, Cron.AddFunc, ha] at hok
      · simp [ScheduleBackup, hg, hp, UpdateBackupSchedule, hw] at hok
  | error e =>
    cases e with
    | other => simp [ScheduleBackup, hg] at hok
    | ErrNoRows =>
      have hge := ((GetBackupSchedule_noRows _ _ _).1 hg).1
      cases hp : parse req.CronSchedule with
      | none => simp [ScheduleBackup, hg, hp] at hok
      | some ev =>
        cases hw : env.writeErr
        · cases ha : env.addErr
          · exact ⟨hge, rfl, rfl, ev, rfl⟩
          · simp [ScheduleBackup, hg, hp, CreateBackupSchedule, hw, Cron.AddFunc, ha] at hok
        · simp [ScheduleBackup, hg, hp, CreateBackupSchedule, hw] at hok

/-- The state after a successful `ScheduleBackup` on an existing schedule. -/
theorem ScheduleBackup_existing_ok (parse : Parser) (env : Env) (s : BackupService)
    (req : ScheduleBackupRequest) (r : BackupSchedule) (ev : Instant → Instant)
    (hg : GetBackupSchedule s.backupRepo env.getErr req.ConnectionID = .ok r)
    (hp : parse req.CronSchedule = some ev)
    (hw : env.writeErr = false) (ha : env.addErr = false) :
    ScheduleBackup parse env s req =
      (none,
        { backupRepo := s.backupRepo.map (fun x => if x.ID = r.ID
            then { r with Enabled := true, CronSchedule := req.CronSchedule,
                          RetentionDays := req.RetentionDays,
                          NextRunTime := some (ev env.now0), UpdatedAt := env.now1 }
            else x),
          cronEntries := mapSet s.cronEntries r.ID (s.cronManager.nextID + 1),
          cronManager :=
            { entries := s.cronManager.entries.filter
                  (fun e => decide (mapGet s.cronEntries r.ID ≠ some e.ID)) ++
                [{ ID := s.cronManager.nextID + 1, Spec := req.CronSchedule,
                   Job := { r with Enabled := true, CronSchedule := req.CronSchedule,
                                   RetentionDays := req.RetentionDays,
                                   NextRunTime := some (ev env.now0),
                                   UpdatedAt := env.now1 } }],
              nextID := s.cronManager.nextID + 1 } }) := by
  cases hm : mapGet s.cronEntries r.ID with
  | none =>
    simp [ScheduleBackup, hg, hp, UpdateBackupSchedule, hw, Cron.AddFunc, ha, hm]
  | some old =>
    have hf : (fun e : Entry => !decide (e.ID = old)) = (fun e => !decide (old = e.ID)) := by
      funext e
      by_cases h : e.ID = old
      · simp [h]
      · have h' : ¬ old = e.ID := fun h2 => h h2.symm
        simp [h, h']
    simp [ScheduleBackup, hg, hp, UpdateBackupSchedule, hw, Cron.AddFunc, ha, hm, Cron.Remove,
      hf]

/-- The state after a successful `ScheduleBackup` on a connection without schedule. -/
theorem ScheduleBackup_new_ok (parse : Parser) (env : Env) (s : BackupService)
    (req : ScheduleBackupRequest) (ev : Instant → Instant)
    (hg : GetBackupSchedule s.backupRepo env.getErr req.ConnectionID = .error .ErrNoRows)
    (hp : parse req.CronSchedule = some ev)
    (hw : env.writeErr = false) (ha : env.addErr = false) :
    ScheduleBackup parse env s req =
      (none,
        { backupRepo := s.backupRepo ++
            [{ ID := env.newID, ConnectionID := req.ConnectionID, Enabled := true,
               CronSchedule := req.CronSchedule, RetentionDays := req.RetentionDays,
               NextRunTime := some (ev env.now0), LastBackupTime := none,
               CreatedAt := env.now1, UpdatedAt := env.now2 }],
          cronEntries := mapSet s.cronEntries env.newID (s.cronManager.nextID + 1),
          cronManager :=
            { entries := s.cronManager.entries ++
                [{ ID := s.cronManager.nextID + 1, Spec := req.CronSchedule,
                   Job := { ID := env.newID, ConnectionID := req.ConnectionID, Enabled := true,
                            CronSchedule := req.CronSchedule,
                            RetentionDays := req.RetentionDays,
                            NextRunTime := some (ev env.now0), LastBackupTime := none,
                            CreatedAt := env.now1, UpdatedAt := env.now2 } }],
              nextID := s.cronManager.nextID + 1 } }) := by
  simp [ScheduleBackup, hg, hp, CreateBackupSchedule, hw, Cron.AddFunc, ha]

/-- The registrations left once the registered handle of a schedule is removed. -/
theorem swept_entries (s : BackupService) (id : UUID) (hreg : TimersRegistered s) :
    ∀ e ∈ s.cronManager.entries.filter (fun e => decide (mapGet s.cronEntries id ≠ some e.ID)),
      e ∈ s.cronManager.entries ∧ e.Job.ID ≠ id ∧
        ∀ old, mapGet s.cronEntries id = some old → e.ID ≠ old := by
  intro e he
  have he' := List.mem_filter.1 he
  have hne : mapGet s.cronEntries id ≠ some e.ID := by simpa using he'.2
  refine ⟨he'.1, ?_, ?_⟩
  · intro hid
    apply hne
    rw [← hid]
    exact hreg e he'.1
  · intro old hold heq
    apply hne
    rw [hold, heq]

/-- Replacing a record by one of the same connection keeps the number of records of each
    connection. -/
theorem schedulesOf_replace (repo : List BackupSchedule) (c : String) (r r' : BackupSchedule)
    (hids : (repo.map (fun x => x.ID)).Nodup) (hr : r ∈ repo)
    (hc : r'.ConnectionID = r.ConnectionID) :
    (schedulesOf (repo.map (fun x => if x.ID = r.ID then r' else x)) c).length =
      (schedulesOf repo c).length := by
  unfold schedulesOf
  rw [List.filter_map, List.length_map]
  congr 1
  apply List.filter_congr
  intro x hx
  simp only [Function.comp]
  by_cases hid : x.ID = r.ID
  · have : x = r := List.inj_on_of_nodup_map hids hx hr hid
    subst this
    simp [hc]
  · simp [hid]

/-- Replacing a record by one of the same identity keeps the identities. -/
theorem ids_replace (repo : List BackupSchedule) (id : UUID) (r' : BackupSchedule)
    (hid : r'.ID = id) :
    (repo.map (fun x => if x.ID = id then r' else x)).map (fun x => x.ID) =
      repo.map (fun x => x.ID) := by
  rw [List.map_map]
  apply List.map_congr_left
  intro x _
  simp only [Function.comp]
  by_cases hx : x.ID = id <;> simp [hx, hid]

/-- What one successful `ScheduleBackup` establishes, from a state with at most one schedule
    for the connection, unique identities and a registry that holds every live timer. -/
theorem ScheduleBackup_success (parse : Parser) (env : Env) (s : BackupService)
    (req : ScheduleBackupRequest)
    (hone : (schedulesOf s.backupRepo req.ConnectionID).length ≤ 1)
    (hids : (s.backupRepo.map (fun x => x.ID)).Nodup)
    (hreg : TimersRegistered s)
    (hfresh : GetBackupSchedule s.backupRepo false req.ConnectionID = .error .ErrNoRows →
      Fresh env s)
    (hok : (ScheduleBackup parse env s req).1 = none) :
    ∃ r1 : BackupSchedule,
      GetBackupSchedule (ScheduleBackup parse env s req).2.backupRepo false req.ConnectionID
        = .ok r1 ∧
      (∀ r, GetBackupSchedule s.backupRepo false req.ConnectionID = .ok r → r1.ID = r.ID) ∧
      (schedulesOf (ScheduleBackup parse env s req).2.backupRepo req.ConnectionID).length = 1 ∧
      ((ScheduleBackup parse env s req).2.backupRepo.map (fun x => x.ID)).Nodup ∧
      TimersRegistered (ScheduleBackup parse env s req).2 ∧
      liveTimers (ScheduleBackup parse env s req).2 r1.ID =
        [{ ID := (ScheduleBackup parse env s req).2.cronManager.nextID,
           Spec := req.CronSchedule, Job := r1 }] ∧
      mapGet (ScheduleBackup parse env s req).2.cronEntries r1.ID =
        some (ScheduleBackup parse env s req).2.cronManager.nextID ∧
      ((ScheduleBackup parse env s req).2.cronEntries.filter
        (fun p => decide (p.1 = r1.ID))).length = 1 ∧
      (ScheduleBackup parse env s req).2.cronManager.nextID = s.cronManager.nextID + 1 ∧
      (∀ r, GetBackupSchedule s.backupRepo false req.ConnectionID = .ok r →
        ∀ e ∈ (ScheduleBackup parse env s req).2.cronManager.entries,
          e.ID = (ScheduleBackup parse env s req).2.cronManager.nextID ∨
          (e ∈ s.cronManager.entries ∧
            ∀ old, mapGet s.cronEntries r.ID = some old → e.ID ≠ old)) := by
  obtain ⟨hge, hw, ha, ev, hp⟩ := ScheduleBackup_ok_cases parse env s req hok
  cases hg : GetBackupSchedule s.backupRepo env.getErr req.ConnectionID with
  | ok r =>
    have hg' := hg
    rw [hge] at hg'
    have hfind := ((GetBackupSchedule_ok _ _ _ _).1 hg).2
    obtain ⟨hconn, hmem⟩ := GetBackupSchedule_conn _ _ _ _ hg
    rw [ScheduleBackup_existing_ok parse env s req r ev hg hp hw ha]
    dsimp only
    have hsw := swept_entries s r.ID hreg
    refine ⟨_, (GetBackupSchedule_ok _ _ _ _).2 ⟨rfl, find_replace _ _ r _ _ hfind rfl hconn⟩,
      ?_, ?_, ?_, ?_, ?_, ?_, ?_, rfl, ?_⟩
    · intro r0 h0
      rw [hg'] at h0
      injection h0 with h0
      rw [← h0]
    · rw [schedulesOf_replace _ _ r _ hids hmem (by rfl)]
      apply le_antisymm hone
      apply List.length_pos_of_mem
      exact List.mem_filter.2 ⟨hmem, by simpa using hconn⟩
    · rw [ids_replace _ r.ID _ (by rfl)]
      exact hids
    · intro e he
      simp only [List.mem_append, List.mem_singleton] at he
      rcases he with he | he
      · have h := hsw e he
        rw [mapGet_mapSet, if_neg (fun h2 => h.2.1 h2.symm)]
        exact hreg e h.1
      · subst he
        rw [mapGet_mapSet]
        simp
    · simp only [liveTimers, List.filter_append]
      have hnil : (s.cronManager.entries.filter
          (fun e => decide (mapGet s.cronEntries r.ID ≠ some e.ID))).filter
          (fun e => decide (e.Job.ID = r.ID)) = [] := by
        rw [List.filter_eq_nil_iff]
        intro e he
        simpa using (hsw e he).2.1
      rw [hnil]
      simp
    · rw [mapGet_mapSet]
      simp
    · exact mapSet_key_count _ _ _
    · intro r0 h0 e he
      rw [hg'] at h0
      injection h0 with h0
      subst h0
      simp only [List.mem_append, List.mem_singleton] at he
      rcases he with he | he
      · exact Or.inr ⟨(hsw e he).1, (hsw e he).2.2⟩
      · subst he
        exact Or.inl rfl
  | error e =>
    cases e with
    | other =>
      simp [GetBackupSchedule, hge] at hg
      split at hg <;> simp at hg
    | ErrNoRows =>
      have hg' := hg
      rw [hge] at hg'
      have hnone := ((GetBackupSchedule_noRows _ _ _).1 hg).2
      obtain ⟨hf1, hf2⟩ := hfresh hg'
      rw [ScheduleBackup_new_ok parse env s req ev hg hp hw ha]
      dsimp only
      refine ⟨_, (GetBackupSchedule_ok _ _ _ _).2 ⟨rfl, find_append_new _ _ _ hnone rfl⟩,
        ?_, ?_, ?_, ?_, ?_, ?_, ?_, rfl, ?_⟩
      · intro r0 h0
        rw [hg'] at h0
        cases h0
      · unfold schedulesOf
        rw [List.filter_append]
        have : s.backupRepo.filter (fun r => decide (r.ConnectionID = req.ConnectionID)) = [] := by
          rw [List.filter_eq_nil_iff]
          exact List.find?_eq_none.1 hnone
        rw [this]
        simp
      · rw [List.map_append, List.nodup_append]
        refine ⟨hids, by simp, ?_⟩
        intro a h1 h2
        simp only [List.map_cons, List.map_nil, List.mem_singleton] at h2
        subst h2
        exact hf1 h1
      · intro e he
        simp only [List.mem_append, List.mem_singleton] at he
        rcases he with he | he
        · rw [mapGet_mapSet, if_neg (fun h2 => hf2 e he h2.symm)]
          exact hreg e he
        · subst he
          rw [mapGet_mapSet]
          simp
      · simp only [liveTimers, List.filter_append]
        have hnil : s.cronManager.entries.filter
            (fun e => decide (e.Job.ID = env.newID)) = [] := by
          rw [List.filter_eq_nil_iff]
          intro e he
          simpa using hf2 e he
        rw [hnil]
        simp
      · rw [mapGet_mapSet]
        simp
      · exact mapSet_key_count _ _ _
      · intro r0 h0
        rw [hg'] at h0
        cases h0

/-! ## `ScheduleBackup` twice -/

/-- C2. From a state with at most one persisted schedule for the connection,
    unique identities and a registry that holds every live timer, two successive successful
    `ScheduleBackup` calls for the connection (the first drawing an unused identity if it
    creates) leave exactly one persisted record for it, the one of the first call with its
    identity kept, exactly one `cronEntries` entry for that identity, and exactly one live timer
    for it, the one registered by the second call: the handle of the first call is no longer
    live. -/
theorem ScheduleBackup_twice_converges (parse : Parser) (env1 env2 : Env)
    (s s1 s2 : BackupService) (req1 req2 : ScheduleBackupRequest)
    (hconn : req2.ConnectionID = req1.ConnectionID)
    (hone : (schedulesOf s.backupRepo req1.ConnectionID).length ≤ 1)
    (hids : (s.backupRepo.map (fun x => x.ID)).Nodup)
    (hreg : TimersRegistered s)
    (hfresh : Fresh env1 s)
    (h1 : ScheduleBackup parse env1 s req1 = (none, s1))
    (h2 : ScheduleBackup parse env2 s1 req2 = (none, s2)) :
    ∃ r1 r2 : BackupSchedule,
      GetBackupSchedule s1.backupRepo false req1.ConnectionID = .ok r1 ∧
      GetBackupSchedule s2.backupRepo false req1.ConnectionID = .ok r2 ∧
      r2.ID = r1.ID ∧
      (schedulesOf s2.backupRepo req1.ConnectionID).length = 1 ∧
      (s2.cronEntries.filter (fun p => decide (p.1 = r1.ID))).length = 1 ∧
      liveTimers s2 r1.ID =
        [{ ID := s2.cronManager.nextID, Spec := req2.CronSchedule, Job := r2 }] ∧
      mapGet s2.cronEntries r1.ID = some s2.cronManager.nextID ∧
      mapGet s1.cronEntries r1.ID = some s1.cronManager.nextID ∧
      (∀ e ∈ s2.cronManager.entries, e.ID ≠ s1.cronManager.nextID) := by
  have hok1 : (ScheduleBackup parse env1 s req1).1 = none := by rw [h1]
  have hok2 : (ScheduleBackup parse env2 s1 req2).1 = none := by rw [h2]
  obtain ⟨r1, a1, _, a3, a4, a5, _, a7, _, _, _⟩ :=
    ScheduleBackup_success parse env1 s req1 hone hids hreg (fun _ => hfresh) hok1
  rw [h1] at a1 a3 a4 a5 a7
  dsimp only at a1 a3 a4 a5 a7
  rw [← hconn] at a1 a3
  have hfresh2 : GetBackupSchedule s1.backupRepo false req2.ConnectionID
      = .error .ErrNoRows → Fresh env2 s1 := by
    intro h
    rw [a1] at h
    cases h
  obtain ⟨r2, b1, b2, b3, _, _, b6, b7, b8, b9, b10⟩ :=
    ScheduleBackup_success parse env2 s1 req2 (le_of_eq a3) a4 a5 hfresh2 hok2
  rw [h2] at b1 b3 b6 b7 b8 b9 b10
  dsimp only at b1 b3 b6 b7 b8 b9 b10
  have hid : r2.ID = r1.ID := b2 r1 a1
  rw [hid] at b6 b7 b8
  rw [hconn] at a1 b1 b3
  refine ⟨r1, r2, a1, b1, hid, b3, b8, b6, b7, a7, ?_⟩
  intro e he
  rcases b10 r1 (by rw [hconn]; exact a1) e he with h | ⟨_, h⟩
  · rw [h, b9]
    exact Nat.succ_ne_self _
  · exact h _ a7

/-- Instance of C2 from the empty service. -/
theorem ScheduleBackup_twice_converges_witness :
    (⟨"c1", "0 30 * * * *", 3⟩ : ScheduleBackupRequest).ConnectionID =
      (⟨"c1", "0 0 * * * *", 7⟩ : ScheduleBackupRequest).ConnectionID ∧
    (schedulesOf BackupService.empty.backupRepo "c1").length ≤ 1 ∧
    (BackupService.empty.backupRepo.map (fun x => x.ID)).Nodup ∧
    TimersRegistered BackupService.empty ∧
    Fresh (okEnv 100 1) BackupService.empty ∧
    ∃ r1 r2 : BackupSchedule,
      GetBackupSchedule (ScheduleBackup sampleParser (okEnv 100 1) BackupService.empty
        ⟨"c1", "0 0 * * * *", 7⟩).2.backupRepo false "c1" = .ok r1 ∧
      GetBackupSchedule (ScheduleBackup sampleParser (okEnv 200 2)
        (ScheduleBackup sampleParser (okEnv 100 1) BackupService.empty
          ⟨"c1", "0 0 * * * *", 7⟩).2 ⟨"c1", "0 30 * * * *", 3⟩).2.backupRepo false "c1"
        = .ok r2 ∧
      r2.ID = r1.ID := by
  have hreg : TimersRegistered BackupService.empty := by
    intro e he; cases he
  have hfresh : Fresh (okEnv 100 1) BackupService.empty :=
    ⟨by decide, by intro e he; cases he⟩
  refine ⟨rfl, by decide, by decide, hreg, hfresh, ?_⟩
  obtain ⟨r1, r2, c1, c2, c3, _⟩ :=
    ScheduleBackup_twice_converges sampleParser (okEnv 100 1) (okEnv 200 2)
      BackupService.empty
      (ScheduleBackup sampleParser (okEnv 100 1) BackupService.empty
        ⟨"c1", "0 0 * * * *", 7⟩).2
      (ScheduleBackup sampleParser (okEnv 200 2)
        (ScheduleBackup sampleParser (okEnv 100 1) BackupService.empty
          ⟨"c1", "0 0 * * * *", 7⟩).2 ⟨"c1", "0 30 * * * *", 3⟩).2
      ⟨"c1", "0 0 * * * *", 7⟩ ⟨"c1", "0 30 * * * *", 3⟩
      rfl (by decide) (by decide) hreg hfresh (by rfl) (by rfl)
  exact ⟨r1, r2, c1, c2, c3⟩

/-! ## Defects -/

/-- C1 at the failing input: after schedule, disable, update on one
    connection, no collaborator failing, the persisted schedule has `enabled = false` and one
    live timer, so the enabled/timer invariant does not hold. -/
theorem update_after_disable_registers_timer :
    (∀ call ∈ disableThenUpdate, call.1.noFailure) ∧
    (∃ r ∈ (run sampleParser BackupService.empty disableThenUpdate).backupRepo,
      r.ConnectionID = "c1" ∧ r.Enabled = false ∧
      (liveTimers (run sampleParser BackupService.empty disableThenUpdate) r.ID).length = 1) ∧
    ¬ EnabledTimerInvariant (run sampleParser BackupService.empty disableThenUpdate) := by
  unfold EnabledTimerInvariant Env.noFailure
  decide

/-- C10 at the failing input: on a service with one schedule and its timer,
    where the registry has no stale handle, a `ScheduleBackup` whose `AddFunc` fails returns
    the scheduling error after removing the old registration and leaves its handle in
    `cronEntries`, a handle that is no longer live. -/
theorem ScheduleBackup_failed_AddFunc_leaves_stale_handle :
    NoStaleHandles scheduledOnce ∧
    (schedulesOf scheduledOnce.backupRepo "c1").length = 1 ∧
    (ScheduleBackup sampleParser addFuncFails scheduledOnce ⟨"c1", "0 30 * * * *", 7⟩).1
      = some Err.failedToSchedule ∧
    (ScheduleBackup sampleParser addFuncFails scheduledOnce
      ⟨"c1", "0 30 * * * *", 7⟩).2.cronEntries = [(1, 1)] ∧
    (ScheduleBackup sampleParser addFuncFails scheduledOnce
      ⟨"c1", "0 30 * * * *", 7⟩).2.cronManager.entries = [] ∧
    ¬ NoStaleHandles (ScheduleBackup sampleParser addFuncFails scheduledOnce
      ⟨"c1", "0 30 * * * *", 7⟩).2 := by
  unfold NoStaleHandles
  decide

/-- Instance of C6 on the service with one schedule. -/
theorem DisableBackupSchedule_contract_witness :
    GetBackupSchedule scheduledOnce.backupRepo (okEnv 200 2).getErr "c1" =
      .ok scheduledRecord ∧ (okEnv 200 2).writeErr = false ∧
    TimersRegistered scheduledOnce ∧
    liveTimers (DisableBackupSchedule (okEnv 200 2) scheduledOnce "c1").2 1 = [] := by
  have hreg : TimersRegistered scheduledOnce := by
    unfold TimersRegistered; decide
  exact ⟨rfl, rfl, hreg,
    ((DisableBackupSchedule_contract (okEnv 200 2) (okEnv 300 3) scheduledOnce "c1").2
      scheduledRecord rfl rfl hreg).2.2.2.1⟩

/-! ## The registry invariant on reachable states -/

/-- Removing the registered handle of a schedule keeps the registry invariant, with or
    without deleting the key. -/
theorem registered_of_removed (s : BackupService) (k : UUID) (old : EntryID)
    (repo : List BackupSchedule) (hreg : TimersRegistered s)
    (hm : mapGet s.cronEntries k = some old) :
    TimersRegistered { backupRepo := repo, cronEntries := s.cronEntries,
                       cronManager := s.cronManager.Remove old } ∧
    TimersRegistered { backupRepo := repo, cronEntries := mapDelete s.cronEntries k,
                       cronManager := s.cronManager.Remove old } ∧
    ∀ e ∈ (s.cronManager.Remove old).entries, e.Job.ID ≠ k := by
  have hne : ∀ e ∈ (s.cronManager.Remove old).entries, e.Job.ID ≠ k := by
    intro e he hid
    have he' := List.mem_filter.1 he
    have h := hreg e he'.1
    rw [hid, hm] at h
    injection h with h
    simp [h] at he'
  refine ⟨?_, ?_, hne⟩
  · intro e he
    exact hreg e (List.mem_filter.1 he).1
  · intro e he
    show mapGet (mapDelete s.cronEntries k) e.Job.ID = some e.ID
    rw [mapGet_mapDelete, if_neg (fun h => hne e he h.symm)]
    exact hreg e (List.mem_filter.1 he).1

/-- Registering a timer for a schedule that has none, under its key, keeps the registry
    invariant. -/
theorem registered_of_added (repo : List BackupSchedule) (m : EntryMap) (c : Cron) (k : UUID)
    (spec : String) (job : BackupSchedule) (hjob : job.ID = k)
    (hreg : ∀ e ∈ c.entries, mapGet m e.Job.ID = some e.ID)
    (hne : ∀ e ∈ c.entries, e.Job.ID ≠ k) :
    TimersRegistered { backupRepo := repo, cronEntries := mapSet m k (c.nextID + 1),
                       cronManager :=
                         { entries := c.entries ++ [{ ID := c.nextID + 1, Spec := spec, Job := job }],
                           nextID := c.nextID + 1 } } := by
  intro e he
  simp only [List.mem_append, List.mem_singleton] at he
  show mapGet (mapSet m k (c.nextID + 1)) e.Job.ID = some e.ID
  rcases he with he | he
  · rw [mapGet_mapSet, if_neg (fun h => hne e he h.symm)]
    exact hreg e he
  · subst he
    rw [mapGet_mapSet]
    simp [hjob]

/-- A schedule without registry entry has no live timer. -/
theorem unregistered_of_none (s : BackupService) (k : UUID) (hreg : TimersRegistered s)
    (hm : mapGet s.cronEntries k = none) : ∀ e ∈ s.cronManager.entries, e.Job.ID ≠ k := by
  intro e he hid
  have h := hreg e he
  rw [hid, hm] at h
  cases h

/-- The registry invariant is kept by `ScheduleBackup` on every outcome. -/
theorem TimersRegistered_ScheduleBackup (parse : Parser) (env : Env) (s : BackupService)
    (req : ScheduleBackupRequest) (hreg : TimersRegistered s) (hfresh : Fresh env s) :
    TimersRegistered (ScheduleBackup parse env s req).2 := by
  cases hg : GetBackupSchedule s.backupRepo env.getErr req.ConnectionID with
  | ok r =>
    cases hp : parse req.CronSchedule with
    | none => simpa [ScheduleBackup, hg, hp] using hreg
    | some ev =>
      cases hw : env.writeErr with
      | true => simpa [ScheduleBackup, hg, hp, UpdateBackupSchedule, hw] using hreg
      | false =>
        cases hm : mapGet s.cronEntries r.ID with
        | none =>
          cases ha : env.addErr with
          | true =>
            simp only [ScheduleBackup, hg, hp, UpdateBackupSchedule, hw, hm, Cron.AddFunc, ha,
              Bool.false_eq_true, if_false, if_true]
            exact hreg
          | false =>
            simp only [ScheduleBackup, hg, hp, UpdateBackupSchedule, hw, hm, Cron.AddFunc, ha,
              Bool.false_eq_true, if_false]
            exact registered_of_added _ _ _ _ _ _ rfl hreg (unregistered_of_none s _ hreg hm)
        | some old =>
          obtain ⟨h1, _, h3⟩ := registered_of_removed s r.ID old s.backupRepo hreg hm
          cases ha : env.addErr with
          | true =>
            simp only [ScheduleBackup, hg, hp, UpdateBackupSchedule, hw, hm, Cron.AddFunc, ha,
              Bool.false_eq_true, if_false, if_true]
            exact h1
          | false =>
            simp only [ScheduleBackup, hg, hp, UpdateBackupSchedule, hw, hm, Cron.AddFunc, ha,
              Bool.false_eq_true, if_false]
            exact registered_of_added _ _ (s.cronManager.Remove old) _ _ _ rfl h1 h3
  | error e =>
    cases e with
    | other => simpa [ScheduleBackup, hg] using hreg
    | ErrNoRows =>
      cases hp : parse req.CronSchedule with
      | none => simpa [ScheduleBackup, hg, hp] using hreg
      | some ev =>
        cases hw : env.writeErr with
        | true => simpa [ScheduleBackup, hg, hp, CreateBackupSchedule, hw] using hreg
        | false =>
          cases ha : env.addErr with
          | true =>
            simp only [ScheduleBackup, hg, hp, CreateBackupSchedule, hw, Cron.AddFunc, ha,
              Bool.false_eq_true, if_false, if_true]
            exact hreg
          | false =>
            simp only [ScheduleBackup, hg, hp, CreateBackupSchedule, hw, Cron.AddFunc, ha,
              Bool.false_eq_true, if_false]
            exact registered_of_added _ _ _ _ _ _ rfl hreg hfresh.2

/-- The registry invariant is kept by `DisableBackupSchedule` on every outcome. -/
theorem TimersRegistered_DisableBackupSchedule (env : Env) (s : BackupService)
    (connectionID : String) (hreg : TimersRegistered s) :
    TimersRegistered (DisableBackupSchedule env s connectionID).2 := by
  cases hg : GetBackupSchedule s.backupRepo env.getErr connectionID with
  | error e => simpa [DisableBackupSchedule, hg] using hreg
  | ok r =>
    cases hm : mapGet s.cronEntries r.ID with
    | none =>
      cases hw : env.writeErr <;>
        simp only [DisableBackupSchedule, hg, hm, UpdateBackupSchedule, hw,
          Bool.false_eq_true, if_false, if_true] <;>
        exact hreg
    | some old =>
      obtain ⟨_, h2, _⟩ := registered_of_removed s r.ID old s.backupRepo hreg hm
      cases hw : env.writeErr <;>
        simp only [DisableBackupSchedule, hg, hm, UpdateBackupSchedule, hw,
          Bool.false_eq_true, if_false, if_true] <;>
        exact h2

/-- Assignment after deletion of the same key. -/
theorem mapSet_mapDelete (m : EntryMap) (k : UUID) (v : EntryID) :
    mapSet (mapDelete m k) k v = mapSet m k v := by
  unfold mapSet mapDelete
  simp [List.filter_filter]

/-- The registry invariant is kept by `UpdateBackupSchedule` on every outcome. -/
theorem TimersRegistered_UpdateSchedule (parse : Parser) (env : Env) (s : BackupService)
    (connectionID : String) (req : UpdateScheduleRequest) (hreg : TimersRegistered s) :
    TimersRegistered (UpdateSchedule parse env s connectionID req).2 := by
  cases hg : GetBackupSchedule s.backupRepo env.getErr connectionID with
  | error e => simpa [UpdateSchedule, hg] using hreg
  | ok r =>
    cases hp : parse req.CronSchedule with
    | none => simpa [UpdateSchedule, hg, hp] using hreg
    | some ev =>
      cases hw : env.writeErr with
      | true => simpa [UpdateSchedule, hg, hp, UpdateBackupSchedule, hw] using hreg
      | false =>
        cases hm : mapGet s.cronEntries r.ID with
        | none =>
          cases ha : env.addErr with
          | true =>
            simp only [UpdateSchedule, hg, hp, UpdateBackupSchedule, hw, hm, Cron.AddFunc, ha,
              Bool.false_eq_true, if_false, if_true]
            exact hreg
          | false =>
            simp only [UpdateSchedule, hg, hp, UpdateBackupSchedule, hw, hm, Cron.AddFunc, ha,
              Bool.false_eq_true, if_false]
            exact registered_of_added _ _ _ _ _ _ rfl hreg (unregistered_of_none s _ hreg hm)
        | some old =>
          obtain ⟨h1, h2, h3⟩ := registered_of_removed s r.ID old s.backupRepo hreg hm
          cases ha : env.addErr with
          | true =>
            simp only [UpdateSchedule, hg, hp, UpdateBackupSchedule, hw, hm, Cron.AddFunc, ha,
              Bool.false_eq_true, if_false, if_true]
            exact h2
          | false =>
            simp only [UpdateSchedule, hg, hp, UpdateBackupSchedule, hw, hm, Cron.AddFunc, ha,
              Bool.false_eq_true, if_false, mapSet_mapDelete]
            exact registered_of_added _ _ (s.cronManager.Remove old) _ _ _ rfl h1 h3

/-- In every reachable state the registry holds every live timer. -/
theorem reachable_timersRegistered (parse : Parser) (s : BackupService)
    (h : Reachable parse s) : TimersRegistered s := by
  induction h with
  | empty => intro e he; cases he
  | step s call _ hfresh ih =>
    obtain ⟨env, op⟩ := call
    cases op with
    | schedule req => exact TimersRegistered_ScheduleBackup parse env s req ih hfresh
    | update c req => exact TimersRegistered_UpdateSchedule parse env s c req ih
    | disable c => exact TimersRegistered_DisableBackupSchedule env s c ih

end Velld
